import Mathlib

/-!
Verification development for the misalud-entendida repository.

The Python modules under `src/` are shallowly embedded: Python strings are
modelled as `List Char`, floats as `ℚ`, raised exceptions as `Except`,
HTTP/model collaborators (CUM registry, SISMED, inference backends) as
oracle functions supplied to the embedded pipeline functions.  Loops whose
Python originals terminate by consuming input are written with an explicit
fuel argument set to an upper bound on the number of iterations the Python
loop can perform, so that every definition computes by kernel reduction.

Unicode caveats of the model (documented once here): `str.upper`/`str.lower`
are modelled on ASCII plus the Latin-1 letter block (the alphabet this
Spanish-language application processes); the regex classes `\d` and `\s`
are modelled as ASCII digits and the six ASCII whitespace characters.
-/

/-- Python strings, as lists of characters. -/
abbrev Str := List Char

/-- Characters matched by Python's `str.strip()` / `str.split()` / regex `\s`
(ASCII fragment). -/
def pyIsSpace (c : Char) : Bool :=
  c = ' ' || c = '\t' || c = '\n' || c = '\r' || c = Char.ofNat 11 || c = Char.ofNat 12

/-- `str.upper` on one character: ASCII letters plus the Latin-1 block
U+00E0..U+00FE (minus the division sign U+00F7).  (Python additionally maps
a few special letters such as 'ß' outside this block; they do not occur in
this application's vocabularies.) -/
def pyUpperChar (c : Char) : Char :=
  if 'a' ≤ c && c ≤ 'z' then Char.ofNat (c.toNat - 32)
  else if Char.ofNat 224 ≤ c && c ≤ Char.ofNat 254 && c ≠ Char.ofNat 247 then
    Char.ofNat (c.toNat - 32)
  else c

/-- `str.lower` on one character: ASCII letters plus the Latin-1 block
U+00C0..U+00DE (minus the multiplication sign U+00D7). -/
def pyLowerChar (c : Char) : Char :=
  if 'A' ≤ c && c ≤ 'Z' then Char.ofNat (c.toNat + 32)
  else if Char.ofNat 192 ≤ c && c ≤ Char.ofNat 222 && c ≠ Char.ofNat 215 then
    Char.ofNat (c.toNat + 32)
  else c

/-- Python `s.upper()`. -/
def pyUpper (s : Str) : Str := s.map pyUpperChar

/-- Python `s.lower()`. -/
def pyLower (s : Str) : Str := s.map pyLowerChar

/-- Python `s.strip()` (whitespace on both ends). -/
def pyStrip (s : Str) : Str :=
  ((s.dropWhile pyIsSpace).reverse.dropWhile pyIsSpace).reverse

/-- Python substring test `needle in hay`. -/
def pyContains (hay needle : Str) : Bool :=
  match hay with
  | [] => needle.isPrefixOf ([] : Str)
  | c :: t => needle.isPrefixOf (c :: t) || pyContains t needle

/-- Python `s.split()` (split on whitespace runs, discarding empties);
fuel-indexed worker, one unit of fuel per character consumed. -/
def pySplitWSF : Nat → Str → List Str
  | 0, _ => []
  | _ + 1, [] => []
  | fuel + 1, c :: rest =>
    if pyIsSpace c then pySplitWSF fuel rest
    else
      (c :: rest.takeWhile (fun x => !pyIsSpace x)) ::
        pySplitWSF fuel (rest.dropWhile (fun x => !pyIsSpace x))

/-- Python `s.split()`. -/
def pySplitWS (s : Str) : List Str := pySplitWSF s.length s

/-- Python `re.sub(r"\s+", " ", s)`; fuel-indexed worker. -/
def collapseWSF : Nat → Str → Str
  | 0, _ => []
  | _ + 1, [] => []
  | fuel + 1, c :: rest =>
    if pyIsSpace c then ' ' :: collapseWSF fuel (rest.dropWhile pyIsSpace)
    else c :: collapseWSF fuel rest

/-- Python `re.sub(r"\s+", " ", s)`. -/
def collapseWS (s : Str) : Str := collapseWSF s.length s

/-- Python `value.replace(",", ".")`. -/
def commaToDot (s : Str) : Str := s.map fun c => if c = ',' then '.' else c

/-- Python lexicographic string order (`<` on `str`), by code point. -/
def pyStrLt (a b : Str) : Bool := decide (a < b)

lemma length_pyUpper (s : Str) : (pyUpper s).length = s.length :=
  List.length_map _ _

lemma pyUpper_append (a b : Str) : pyUpper (a ++ b) = pyUpper a ++ pyUpper b :=
  List.map_append _ _ _

lemma pyLower_append (a b : Str) : pyLower (a ++ b) = pyLower a ++ pyLower b :=
  List.map_append _ _ _

lemma pyContains_cons_of (c : Char) (t needle : Str)
    (h : pyContains t needle = true) : pyContains (c :: t) needle = true := by
  simp only [pyContains, Bool.or_eq_true]
  exact Or.inr h

lemma pyContains_append_right (a b needle : Str)
    (h : pyContains b needle = true) : pyContains (a ++ b) needle = true := by
  induction a with
  | nil => simpa using h
  | cons c t ih => exact pyContains_cons_of c (t ++ b) needle ih

/-! ## Python `min`/`max` over iterables -/

/-- Python `max(iterable)`: start from the first element, replace the current
best when a later element compares strictly greater. -/
def pyFoldMax {β : Type} [LinearOrder β] (init : β) (l : List β) : β :=
  l.foldl (fun acc x => if acc < x then x else acc) init

/-- Python `min(iterable)`. -/
def pyFoldMin {β : Type} [LinearOrder β] (init : β) (l : List β) : β :=
  l.foldl (fun acc x => if x < acc then x else acc) init

lemma pyFoldMax_cons {β : Type} [LinearOrder β] (init y : β) (t : List β) :
    pyFoldMax init (y :: t) = pyFoldMax (if init < y then y else init) t := rfl

lemma pyFoldMin_cons {β : Type} [LinearOrder β] (init y : β) (t : List β) :
    pyFoldMin init (y :: t) = pyFoldMin (if y < init then y else init) t := rfl

lemma le_pyFoldMax {β : Type} [LinearOrder β] (init : β) (l : List β) :
    init ≤ pyFoldMax init l ∧ ∀ x ∈ l, x ≤ pyFoldMax init l := by
  induction l generalizing init with
  | nil => simp [pyFoldMax]
  | cons y t ih =>
    rw [pyFoldMax_cons]
    obtain ⟨h1, h2⟩ := ih (if init < y then y else init)
    have hinit : init ≤ (if init < y then y else init) := by
      by_cases hlt : init < y <;> simp [hlt, le_of_lt]
    have hy : y ≤ (if init < y then y else init) := by
      by_cases hlt : init < y <;> simp [hlt, le_of_not_lt]
    refine ⟨le_trans hinit h1, ?_⟩
    intro x hx
    rcases List.mem_cons.mp hx with rfl | hx
    · exact le_trans hy h1
    · exact h2 x hx

lemma pyFoldMax_eq_init_or_mem {β : Type} [LinearOrder β] (init : β) (l : List β) :
    pyFoldMax init l = init ∨ pyFoldMax init l ∈ l := by
  induction l generalizing init with
  | nil => simp [pyFoldMax]
  | cons y t ih =>
    rw [pyFoldMax_cons]
    rcases ih (if init < y then y else init) with h | h
    · rw [h]
      by_cases hlt : init < y
      · simp only [hlt, if_true]
        exact Or.inr (List.mem_cons_self _ _)
      · simp [hlt]
    · exact Or.inr (List.mem_cons_of_mem _ h)

lemma pyFoldMin_le {β : Type} [LinearOrder β] (init : β) (l : List β) :
    pyFoldMin init l ≤ init ∧ ∀ x ∈ l, pyFoldMin init l ≤ x := by
  induction l generalizing init with
  | nil => simp [pyFoldMin]
  | cons y t ih =>
    rw [pyFoldMin_cons]
    obtain ⟨h1, h2⟩ := ih (if y < init then y else init)
    have hinit : (if y < init then y else init) ≤ init := by
      by_cases hlt : y < init <;> simp [hlt, le_of_lt]
    have hy : (if y < init then y else init) ≤ y := by
      by_cases hlt : y < init <;> simp [hlt, le_of_not_lt]
    refine ⟨le_trans h1 hinit, ?_⟩
    intro x hx
    rcases List.mem_cons.mp hx with rfl | hx
    · exact le_trans h1 hy
    · exact h2 x hx

lemma pyFoldMin_eq_init_or_mem {β : Type} [LinearOrder β] (init : β) (l : List β) :
    pyFoldMin init l = init ∨ pyFoldMin init l ∈ l := by
  induction l generalizing init with
  | nil => simp [pyFoldMin]
  | cons y t ih =>
    rw [pyFoldMin_cons]
    rcases ih (if y < init then y else init) with h | h
    · rw [h]
      by_cases hlt : y < init
      · simp only [hlt, if_true]
        exact Or.inr (List.mem_cons_self _ _)
      · simp [hlt]
    · exact Or.inr (List.mem_cons_of_mem _ h)

/-! ## Data model (src/models.py) -/

/-- `CUMRecord` from src/models.py: one Colombian drug-registry entry. -/
structure CUMRecord where
  expedientecum : Str
  producto : Str
  principioactivo : Str
  concentracion_valor : Str
  unidadmedida : Str
  formafarmaceutica : Str
  titular : Str
  registrosanitario : Str
  estadoregistro : Str
  cantidadcum : Str
  descripcioncomercial : Str
deriving DecidableEq

/-- `PriceRecord` from src/models.py: one SISMED price observation. -/
structure PriceRecord where
  expedientecum : Str
  descripcioncomercial : Str
  formafarmaceutica : Str
  atc : Str
  descripcion_atc : Str
  precio_minimo : ℚ
  precio_maximo : ℚ
  precio_promedio : ℚ
  unidades : ℚ
  fechacorte : Str
  tipo_reporte : Str
  tipo_entidad : Str
deriving DecidableEq

/-- The summary dict built by `get_price_range` (src/api/sismed.py); field
`pmin` models dict key "min", `pmax` "max", `pavg` "avg". -/
structure PriceSummary where
  pmin : ℚ
  pmax : ℚ
  pavg : ℚ
  fecha_datos : Str
  num_registros : Nat
deriving DecidableEq

/-! ## src/api/sismed.py: get_price_range -/

/-- `get_price_range` (src/api/sismed.py lines 157-188).  `min` is taken over
the records with strictly positive `precio_minimo`; when a non-empty input has
no such record the Python `min()` call raises `ValueError`, modelled as
`.error`.  `max`, the average and the most recent date range over all
records. -/
def getPriceRange (prices : List PriceRecord) : Except Str (Option PriceSummary) :=
  match prices with
  | [] => .ok none
  | p0 :: rest =>
    match (p0 :: rest).filter (fun p => decide (0 < p.precio_minimo)) with
    | [] => .error ("ValueError: min() arg is an empty sequence".toList)
    | q0 :: qrest =>
      .ok (some
        { pmin := pyFoldMin q0.precio_minimo (qrest.map (·.precio_minimo))
          pmax := pyFoldMax p0.precio_maximo (rest.map (·.precio_maximo))
          pavg := (((p0 :: rest).map (·.precio_promedio)).sum) / (((p0 :: rest).length : ℚ))
          fecha_datos := pyFoldMax p0.fechacorte (rest.map (·.fechacorte))
          num_registros := (p0 :: rest).length })

/-- A SISMED record as filtered by `get_price_by_expediente`: its
`precio_promedio` is nonzero (so it is not a "zero-price record"), yet its
reported `precio_minimo` is 0, which the upstream filter does not exclude. -/
def sismedZeroMinRecord : PriceRecord where
  expedientecum := "35811".toList
  descripcioncomercial := "CAJA X 30 TABLETAS".toList
  formafarmaceutica := "TABLETA".toList
  atc := "A10BA02".toList
  descripcion_atc := "METFORMINA".toList
  precio_minimo := 0
  precio_maximo := 2000
  precio_promedio := 1500
  unidades := 30
  fechacorte := "2019/06/01".toList
  tipo_reporte := "VENTA".toList
  tipo_entidad := "LABORATORIO".toList

/-- An ordinary SISMED record with all prices positive. -/
def sismedOkRecord : PriceRecord where
  expedientecum := "35811".toList
  descripcioncomercial := "CAJA X 30 TABLETAS".toList
  formafarmaceutica := "TABLETA".toList
  atc := "A10BA02".toList
  descripcion_atc := "METFORMINA".toList
  precio_minimo := 1000
  precio_maximo := 2000
  precio_promedio := 1500
  unidades := 30
  fechacorte := "2019/06/01".toList
  tipo_reporte := "VENTA".toList
  tipo_entidad := "LABORATORIO".toList

/-- C8 counterexample: on the non-empty list holding one record whose
`precio_promedio` is nonzero (so it survives the upstream zero-price filter)
but whose `precio_minimo` is 0, `get_price_range` raises `ValueError` instead
of returning a summary — refuting both "it never raises" and "min is the
minimum price across the records". -/
theorem C8_counterexample_zero_min_raises :
    sismedZeroMinRecord.precio_promedio ≠ 0 ∧
    getPriceRange [sismedZeroMinRecord] =
      Except.error ("ValueError: min() arg is an empty sequence".toList) := by
  constructor
  · decide
  · rfl

/-- C8 (amended): `get_price_range` returns `none` for the empty list; for a
non-empty list holding at least one record with strictly positive
`precio_minimo` it returns a summary whose `min` is the least `precio_minimo`
among the records with positive `precio_minimo`, whose `max` is the greatest
`precio_maximo` over all records, whose `avg` is the mean of the records'
`precio_promedio`, whose date is the lexicographically greatest `fechacorte`,
and whose count is the number of records.  (When no record has positive
`precio_minimo`, the Python `min()` raises `ValueError`, as the
counterexample shows.) -/
theorem C8_get_price_range_amended :
    getPriceRange [] = Except.ok none ∧
    ∀ prices : List PriceRecord, prices ≠ [] →
      (∃ p ∈ prices, 0 < p.precio_minimo) →
      ∃ s : PriceSummary, getPriceRange prices = Except.ok (some s) ∧
        (∀ p ∈ prices, 0 < p.precio_minimo → s.pmin ≤ p.precio_minimo) ∧
        (∃ p ∈ prices, 0 < p.precio_minimo ∧ s.pmin = p.precio_minimo) ∧
        (∀ p ∈ prices, p.precio_maximo ≤ s.pmax) ∧
        (∃ p ∈ prices, s.pmax = p.precio_maximo) ∧
        s.pavg * (prices.length : ℚ) = (prices.map (·.precio_promedio)).sum ∧
        (∀ p ∈ prices, p.fechacorte ≤ s.fecha_datos) ∧
        (∃ p ∈ prices, s.fecha_datos = p.fechacorte) ∧
        s.num_registros = prices.length := by
  refine ⟨rfl, ?_⟩
  intro prices hne hex
  cases prices with
  | nil => exact absurd rfl hne
  | cons p0 rest =>
    have hfil : (p0 :: rest).filter (fun p => decide (0 < p.precio_minimo)) ≠ [] := by
      obtain ⟨p, hp, hpos⟩ := hex
      intro h
      have hmem : p ∈ (p0 :: rest).filter (fun p => decide (0 < p.precio_minimo)) :=
        List.mem_filter.mpr ⟨hp, by simpa using hpos⟩
      rw [h] at hmem
      exact absurd hmem (List.not_mem_nil p)
    cases hq : (p0 :: rest).filter (fun p => decide (0 < p.precio_minimo)) with
    | nil => exact absurd hq hfil
    | cons q0 qrest =>
      have hred : getPriceRange (p0 :: rest) =
          Except.ok (some
            { pmin := pyFoldMin q0.precio_minimo (qrest.map (·.precio_minimo))
              pmax := pyFoldMax p0.precio_maximo (rest.map (·.precio_maximo))
              pavg := (((p0 :: rest).map (·.precio_promedio)).sum) /
                (((p0 :: rest).length : ℚ))
              fecha_datos := pyFoldMax p0.fechacorte (rest.map (·.fechacorte))
              num_registros := (p0 :: rest).length }) := by
        simp only [getPriceRange]
        rw [hq]
      refine ⟨_, hred, ?_, ?_, ?_, ?_, ?_, ?_, ?_, rfl⟩
      · -- min is a lower bound over records with positive precio_minimo
        intro p hp hpos
        have hpf : p ∈ q0 :: qrest := by
          rw [← hq]
          exact List.mem_filter.mpr ⟨hp, by simpa using hpos⟩
        rcases List.mem_cons.mp hpf with rfl | hpf
        · exact (pyFoldMin_le _ _).1
        · exact (pyFoldMin_le _ _).2 _ (List.mem_map_of_mem _ hpf)
      · -- min is attained
        rcases pyFoldMin_eq_init_or_mem q0.precio_minimo (qrest.map (·.precio_minimo))
          with h | h
        · have hq0 : q0 ∈ (p0 :: rest).filter (fun p => decide (0 < p.precio_minimo)) := by
            rw [hq]; exact List.mem_cons_self _ _
          obtain ⟨hq0m, hq0p⟩ := List.mem_filter.mp hq0
          exact ⟨q0, hq0m, by simpa using hq0p, h⟩
        · obtain ⟨q, hqm, hqe⟩ := List.mem_map.mp h
          have hqf : q ∈ (p0 :: rest).filter (fun p => decide (0 < p.precio_minimo)) := by
            rw [hq]; exact List.mem_cons_of_mem _ hqm
          obtain ⟨hqmem, hqp⟩ := List.mem_filter.mp hqf
          exact ⟨q, hqmem, by simpa using hqp, hqe.symm⟩
      · -- max is an upper bound
        intro p hp
        rcases List.mem_cons.mp hp with rfl | hp
        · exact (le_pyFoldMax _ _).1
        · exact (le_pyFoldMax _ _).2 _ (List.mem_map_of_mem _ hp)
      · -- max is attained
        rcases pyFoldMax_eq_init_or_mem p0.precio_maximo (rest.map (·.precio_maximo))
          with h | h
        · exact ⟨p0, List.mem_cons_self _ _, h⟩
        · obtain ⟨q, hqm, hqe⟩ := List.mem_map.mp h
          exact ⟨q, List.mem_cons_of_mem _ hqm, hqe.symm⟩
      · -- avg is the mean of the averages
        have hlen : (((p0 :: rest).length : ℚ)) ≠ 0 := by
          simp [List.length_cons]
          positivity
        exact div_mul_cancel₀ _ hlen
      · -- most recent date is an upper bound
        intro p hp
        rcases List.mem_cons.mp hp with rfl | hp
        · exact (le_pyFoldMax _ _).1
        · exact (le_pyFoldMax _ _).2 _ (List.mem_map_of_mem _ hp)
      · -- most recent date is attained
        rcases pyFoldMax_eq_init_or_mem p0.fechacorte (rest.map (·.fechacorte))
          with h | h
        · exact ⟨p0, List.mem_cons_self _ _, h⟩
        · obtain ⟨q, hqm, hqe⟩ := List.mem_map.mp h
          exact ⟨q, List.mem_cons_of_mem _ hqm, hqe.symm⟩

/-- C8 witness: the amended theorem applied to the concrete singleton list
with positive prices. -/
theorem C8_get_price_range_amended_witness :
    [sismedOkRecord] ≠ [] ∧
    ∃ s : PriceSummary, getPriceRange [sismedOkRecord] = Except.ok (some s) ∧
      (∀ p ∈ [sismedOkRecord], 0 < p.precio_minimo → s.pmin ≤ p.precio_minimo) ∧
      (∃ p ∈ [sismedOkRecord], 0 < p.precio_minimo ∧ s.pmin = p.precio_minimo) ∧
      (∀ p ∈ [sismedOkRecord], p.precio_maximo ≤ s.pmax) ∧
      (∃ p ∈ [sismedOkRecord], s.pmax = p.precio_maximo) ∧
      s.pavg * (([sismedOkRecord] : List PriceRecord).length : ℚ) =
        ([sismedOkRecord].map (·.precio_promedio)).sum ∧
      (∀ p ∈ [sismedOkRecord], p.fechacorte ≤ s.fecha_datos) ∧
      (∃ p ∈ [sismedOkRecord], s.fecha_datos = p.fechacorte) ∧
      s.num_registros = ([sismedOkRecord] : List PriceRecord).length :=
  ⟨by decide,
    C8_get_price_range_amended.2 [sismedOkRecord] (by decide)
      ⟨sismedOkRecord, List.mem_cons_self _ _, by decide⟩⟩

/-! ## src/pipelines/document_chat.py: grounded Q&A -/

/-- `DocumentChatContext` from src/models.py (the `extracted_json` dict is
carried opaquely as key/value pairs; the chat pipeline only serializes it). -/
structure DocumentChatContext where
  document_kind : Str
  report_markdown : Str
  extracted_text : Str
  extracted_json : List (Str × Str)
  warnings : List Str
  uncertainty_notes : List Str
  route_confidence : ℚ
  evidence_source : Str

/-- The disclaimer phrase checked case-insensitively by `answer_question`. -/
def DISCLAIMER_NEEDLE : Str := "no reemplaza el consejo médico".toList

/-- `UNKNOWN_RESPONSE` (src/pipelines/document_chat.py). -/
def UNKNOWN_RESPONSE : Str :=
  ("No se puede confirmar con la información disponible. " ++
    "Esta herramienta es educativa y no reemplaza el consejo médico.").toList

/-- `NEEDS_CONTEXT_RESPONSE` (src/pipelines/document_chat.py). -/
def NEEDS_CONTEXT_RESPONSE : Str :=
  ("Primero analice un documento para habilitar preguntas de seguimiento. " ++
    "Esta herramienta es educativa y no reemplaza el consejo médico.").toList

/-- `REFUSAL_RESPONSE` (src/pipelines/document_chat.py). -/
def REFUSAL_RESPONSE : Str :=
  ("No puedo diagnosticar ni indicar cambios de tratamiento o dosis. " ++
    "Consulte a su médico tratante. " ++
    "Esta herramienta es educativa y no reemplaza el consejo médico.").toList

/-- `_resolve_backend_order` (src/pipelines/document_chat.py): `"auto"` (and
any unsupported name) expands to modal then transformers; a supported name is
used alone.  The Python `backend_name or "auto"` falls back on the empty
string. -/
def resolveBackendOrderChat (backendName : Str) : List Str :=
  let configured := pyLower (pyStrip (if backendName = [] then "auto".toList else backendName))
  if configured = "auto".toList then ["modal".toList, "transformers".toList]
  else if configured = "modal".toList ∨ configured = "transformers".toList then [configured]
  else ["modal".toList, "transformers".toList]

/-- The fixed phrase list of `_needs_medical_refusal`. -/
def blockedPhrases : List Str :=
  ["diagnost".toList, "diagnosis".toList, "cambiar dosis".toList,
    "subir dosis".toList, "bajar dosis".toList, "suspender".toList,
    "reemplazar medicamento".toList, "que tratamiento".toList]

/-- `_needs_medical_refusal` (src/pipelines/document_chat.py). -/
def needsMedicalRefusal (question : Str) : Bool :=
  blockedPhrases.any (fun tok => pyContains (pyLower question) tok)

/-- The backend loop inside `answer_question`: each backend in the order is
given by the oracle `outcomes` either a raised exception (`.error`) or the
text its `generate_text` returned; a non-empty stripped answer is returned
(with the disclaimer sentence appended when missing), anything else falls
through to the next backend, and exhaustion yields `UNKNOWN_RESPONSE`. -/
def chatBackendLoop (outcomes : Str → Except Str Str) : List Str → List Str → Str
  | [], _errs => UNKNOWN_RESPONSE
  | candidate :: rest, errs =>
    match outcomes candidate with
    | .error e =>
      chatBackendLoop outcomes rest (errs ++ [candidate ++ ": ".toList ++ e])
    | .ok r =>
      let raw := pyStrip r
      if raw = [] then
        chatBackendLoop outcomes rest (errs ++ [candidate ++ ": respuesta vacía".toList])
      else if pyContains (pyLower raw) DISCLAIMER_NEEDLE then raw
      else
        raw ++ "\n\nEsta herramienta es educativa y no reemplaza el consejo médico.".toList

/-- `answer_question` (src/pipelines/document_chat.py lines 64-107).  The
inference backends are abstracted by `outcomes`, mapping a backend name to
what its `generate_text` call does for this request. -/
def answerQuestion (outcomes : Str → Except Str Str) (question : Str)
    (context : Option DocumentChatContext) (backendName : Str) : Str :=
  match context with
  | none => NEEDS_CONTEXT_RESPONSE
  | some _ =>
    let questionClean := pyStrip question
    if questionClean = [] then UNKNOWN_RESPONSE
    else if needsMedicalRefusal questionClean then REFUSAL_RESPONSE
    else chatBackendLoop outcomes (resolveBackendOrderChat backendName) []

lemma chatBackendLoop_disclaimer (outcomes : Str → Except Str Str)
    (order errs : List Str) :
    pyContains (pyLower (chatBackendLoop outcomes order errs))
      DISCLAIMER_NEEDLE = true := by
  induction order generalizing errs with
  | nil =>
    show pyContains (pyLower UNKNOWN_RESPONSE) DISCLAIMER_NEEDLE = true
    decide
  | cons candidate rest ih =>
    simp only [chatBackendLoop]
    split
    · exact ih _
    · split
      · exact ih _
      · split
        next hdisc => exact hdisc
        next =>
          rw [pyLower_append]
          exact pyContains_append_right _ _ _ (by decide)

/-- C10: every string `answer_question` returns — for every question, every
context (including None), and every backend behaviour — contains the
disclaimer phrase "no reemplaza el consejo médico" case-insensitively: the
fixed responses carry it, and a model answer lacking it has the disclaimer
sentence appended. -/
theorem C10_answer_question_disclaimer
    (outcomes : Str → Except Str Str) (question : Str)
    (context : Option DocumentChatContext) (backendName : Str) :
    pyContains (pyLower (answerQuestion outcomes question context backendName))
      DISCLAIMER_NEEDLE = true := by
  cases context with
  | none =>
    show pyContains (pyLower NEEDS_CONTEXT_RESPONSE) DISCLAIMER_NEEDLE = true
    decide
  | some ctx =>
    simp only [answerQuestion]
    split
    · decide
    · split
      · decide
      · exact chatBackendLoop_disclaimer _ _ _

/-! ## src/pipelines/document_orchestrator.py: backend fallback and verification -/

/-- `MedicationItem` from src/models.py. -/
structure MedicationItem where
  nombre_medicamento : Str
  dosis : Str
  frecuencia : Str
  duracion : Str
  instrucciones : Str
deriving DecidableEq

/-- `PrescriptionExtraction` from src/models.py. -/
structure PrescriptionExtraction where
  medicamentos : List MedicationItem
  raw_response : Str
  parse_success : Bool
deriving DecidableEq

/-- `LabResultItem` from src/models.py. -/
structure LabResultItem where
  nombre_prueba : Str
  valor : Str
  unidad : Str
  rango_referencia : Str
  estado : Str
deriving DecidableEq

/-- `LabResultExtraction` from src/models.py. -/
structure LabResultExtraction where
  resultados : List LabResultItem
  raw_response : Str
  parse_success : Bool
deriving DecidableEq

/-- Python `sep.join(strings)`. -/
def pyJoin (sep : Str) : List Str → Str
  | [] => []
  | [x] => x
  | x :: y :: t => x ++ sep ++ pyJoin sep (y :: t)

lemma isPrefixOf_append_self (a b : Str) : a.isPrefixOf (a ++ b) = true := by
  induction a with
  | nil => simp [List.isPrefixOf]
  | cons c t ih => simp [List.isPrefixOf, ih]

lemma pyContains_of_isPrefixOf (hay needle : Str)
    (h : needle.isPrefixOf hay = true) : pyContains hay needle = true := by
  cases hay with
  | nil => simpa [pyContains] using h
  | cons c t =>
    simp only [pyContains, Bool.or_eq_true]
    exact Or.inl h

lemma pyContains_append_left (a b : Str) : pyContains (a ++ b) a = true :=
  pyContains_of_isPrefixOf _ _ (isPrefixOf_append_self a b)

lemma pyContains_pyJoin_mem (sep : Str) (xs : List Str) (x : Str) (hx : x ∈ xs) :
    pyContains (pyJoin sep xs) x = true := by
  induction xs with
  | nil => exact absurd hx (List.not_mem_nil x)
  | cons y t ih =>
    cases t with
    | nil =>
      rcases List.mem_cons.mp hx with rfl | hx
      · show pyContains x x = true
        have : pyContains (x ++ []) x = true := pyContains_append_left x []
        simpa using this
      · exact absurd hx (List.not_mem_nil x)
    | cons z t2 =>
      show pyContains (y ++ sep ++ pyJoin sep (z :: t2)) x = true
      rcases List.mem_cons.mp hx with rfl | hx
      · rw [List.append_assoc]
        exact pyContains_append_left x (sep ++ pyJoin sep (z :: t2))
      · exact pyContains_append_right _ _ _ (ih hx)

/-- `_VerificationResult` for the prescription branch (the Python dataclass is
untyped over the two extraction kinds; the embedding splits it per branch). -/
structure PrescriptionVerification where
  extraction : Option PrescriptionExtraction
  backend_name : Str
  error : Str
deriving DecidableEq

/-- `_VerificationResult` for the lab branch. -/
structure LabVerification where
  extraction : Option LabResultExtraction
  backend_name : Str
  error : Str
deriving DecidableEq

/-- Python `if validator is None or validator(result)`. -/
def validatorAccepts {α : Type} : Option (α → Bool) → α → Bool
  | none, _ => true
  | some v, r => v r

/-- The `RuntimeError` message raised when every backend fails
(src/pipelines/document_orchestrator.py lines 83-86). -/
def fallbackFailMessage (taskLabel : Str) (backendOrder : List Str)
    (errors : List Str) : Str :=
  "Falló ".toList ++ taskLabel ++ " con backends ".toList ++
    pyJoin ", ".toList backendOrder ++ ". Detalle: ".toList ++
    (if errors = [] then "sin detalle".toList else pyJoin " | ".toList errors)

/-- The loop of `_run_with_backend_fallback` (lines 72-82): `pending` is the
not-yet-attempted tail of the order, `errors` the accumulated failure notes,
`attempted` the trace of backends tried so far.  The oracle `run` bundles
`_get_backend_instance(name)` plus `runner(backend)`: `.error` when either
raises.  Returns the Python function's outcome (result-with-backend-name or
raised `RuntimeError`) together with the attempted-backend trace. -/
def fallbackGo {α : Type} (run : Str → Except Str α) (validator : Option (α → Bool))
    (taskLabel : Str) (fullOrder : List Str) :
    List Str → List Str → List Str → Except Str (α × Str) × List Str
  | [], errors, attempted =>
    (Except.error (fallbackFailMessage taskLabel fullOrder errors), attempted)
  | name :: pending, errors, attempted =>
    match run name with
    | .error e =>
      fallbackGo run validator taskLabel fullOrder pending
        (errors ++ [name ++ ": ".toList ++ e]) (attempted ++ [name])
    | .ok result =>
      if validatorAccepts validator result then (Except.ok (result, name), attempted ++ [name])
      else
        fallbackGo run validator taskLabel fullOrder pending
          (errors ++ [name ++ ": resultado inválido".toList]) (attempted ++ [name])

/-- `_run_with_backend_fallback` (src/pipelines/document_orchestrator.py
lines 66-86). -/
def runWithBackendFallback {α : Type} (run : Str → Except Str α)
    (validator : Option (α → Bool)) (taskLabel : Str) (backendOrder : List Str) :
    Except Str (α × Str) × List Str :=
  fallbackGo run validator taskLabel backendOrder backendOrder [] []

/-- Validator used by `_verify_prescription`: the result parsed and has at
least one medication (the `isinstance` check always holds in the typed
model). -/
def prescriptionValidator (r : PrescriptionExtraction) : Bool :=
  r.parse_success && !r.medicamentos.isEmpty

/-- Validator used by `_verify_lab`. -/
def labValidator (r : LabResultExtraction) : Bool :=
  r.parse_success && !r.resultados.isEmpty

/-- `_verify_prescription` (src/pipelines/document_orchestrator.py lines
89-128); the prompt construction and per-backend extraction are bundled into
the oracle `run`.  Also returns the attempted-backend trace. -/
def verifyPrescription (run : Str → Except Str PrescriptionExtraction)
    (backendOrder : List Str) : PrescriptionVerification × List Str :=
  match runWithBackendFallback run (some prescriptionValidator)
      "verify_prescription".toList backendOrder with
  | (Except.ok (result, name), attempted) =>
    (⟨some result, name, []⟩, attempted)
  | (Except.error e, attempted) => (⟨none, [], e⟩, attempted)

/-- `_verify_lab` (src/pipelines/document_orchestrator.py lines 131-170). -/
def verifyLab (run : Str → Except Str LabResultExtraction)
    (backendOrder : List Str) : LabVerification × List Str :=
  match runWithBackendFallback run (some labValidator)
      "verify_lab".toList backendOrder with
  | (Except.ok (result, name), attempted) =>
    (⟨some result, name, []⟩, attempted)
  | (Except.error e, attempted) => (⟨none, [], e⟩, attempted)

/-! ## src/pipelines/document_orchestrator.py: kind selection (lines 244-281) -/

/-- The mutable locals of `analyze_document` lines 244-281 after the
verification stage. -/
structure KindSelection where
  selected_kind : Str
  selected_backend : Str
  prescription_result : Option PrescriptionExtraction
  lab_result : Option LabResultExtraction
  raw_verification_response : Str
deriving DecidableEq

/-- `analyze_document` lines 244-281: run the prescription verifier for kinds
prescription/unknown and the lab verifier for kinds lab/unknown (verifier
outcomes supplied as `presV`/`labV`), then resolve the final kind; when the
route was `unknown` and both extractions are present, the branch with
strictly more items wins, ties going to prescription. -/
def selectExtractionAndKind (routeKind routeBackend : Str)
    (presV : PrescriptionVerification) (labV : LabVerification) : KindSelection :=
  let pres0 : Option PrescriptionExtraction :=
    if routeKind = "prescription".toList ∨ routeKind = "unknown".toList then
      presV.extraction
    else none
  let raw0 : Str := match pres0 with
    | some pe => pe.raw_response
    | none => []
  let sb0 : Str := match pres0 with
    | some _ => if presV.backend_name = [] then routeBackend else presV.backend_name
    | none => routeBackend
  if routeKind = "lab".toList ∨ routeKind = "unknown".toList then
    match labV.extraction with
    | some le =>
      let sb1 := if labV.backend_name = [] then sb0 else labV.backend_name
      match pres0 with
      | some pe =>
        if routeKind = "unknown".toList then
          if pe.medicamentos.length < le.resultados.length then
            ⟨"lab".toList, sb1, none, some le, le.raw_response⟩
          else
            ⟨"prescription".toList, sb1, some pe, none, le.raw_response⟩
        else
          ⟨"lab".toList, sb1, some pe, some le, le.raw_response⟩
      | none => ⟨"lab".toList, sb1, none, some le, le.raw_response⟩
    | none =>
      match pres0 with
      | some pe =>
        if routeKind = "unknown".toList then
          ⟨"prescription".toList, sb0, some pe, none, raw0⟩
        else ⟨routeKind, sb0, some pe, none, raw0⟩
      | none => ⟨routeKind, sb0, none, none, raw0⟩
  else
    ⟨routeKind, sb0, pres0, none, raw0⟩

/-- C9: when the route kind is `unknown` and both verifications produced
extractions, the final kind is `lab` exactly when there are strictly more lab
results than medications; equal counts resolve to `prescription`. -/
theorem C9_unknown_tie_resolution (routeBackend : Str)
    (presV : PrescriptionVerification) (labV : LabVerification)
    (pe : PrescriptionExtraction) (le : LabResultExtraction)
    (hp : presV.extraction = some pe) (hl : labV.extraction = some le) :
    (selectExtractionAndKind "unknown".toList routeBackend presV labV).selected_kind =
      (if pe.medicamentos.length < le.resultados.length then "lab".toList
        else "prescription".toList) ∧
    (le.resultados.length = pe.medicamentos.length →
      (selectExtractionAndKind "unknown".toList routeBackend presV labV).selected_kind =
        "prescription".toList) ∧
    (pe.medicamentos.length < le.resultados.length →
      (selectExtractionAndKind "unknown".toList routeBackend presV labV).lab_result = some le ∧
      (selectExtractionAndKind "unknown".toList routeBackend presV labV).prescription_result
        = none) ∧
    (¬ pe.medicamentos.length < le.resultados.length →
      (selectExtractionAndKind "unknown".toList routeBackend presV labV).prescription_result
        = some pe ∧
      (selectExtractionAndKind "unknown".toList routeBackend presV labV).lab_result = none) := by
  by_cases hlt : pe.medicamentos.length < le.resultados.length
  · refine ⟨?_, ?_, ?_, ?_⟩ <;>
      simp [selectExtractionAndKind, hp, hl, hlt]
    intro hle
    omega
  · refine ⟨?_, ?_, ?_, ?_⟩ <;>
      simp [selectExtractionAndKind, hp, hl, hlt]

/-- Concrete prescription extraction with one medication. -/
def samplePresExtraction : PrescriptionExtraction :=
  ⟨[⟨"LOSARTAN 50MG".toList, "50MG".toList, [], [], []⟩], "rawp".toList, true⟩

/-- Concrete lab extraction with one result. -/
def sampleLabExtraction : LabResultExtraction :=
  ⟨[⟨"GLUCOSA".toList, "90".toList, "mg/dL".toList, "70-100".toList,
    "normal".toList⟩], "rawl".toList, true⟩

/-- C9 witness: equal item counts (1 and 1) resolve to prescription. -/
theorem C9_unknown_tie_resolution_witness :
    (selectExtractionAndKind "unknown".toList [] ⟨some samplePresExtraction, [], []⟩
        ⟨some sampleLabExtraction, [], []⟩).selected_kind = "prescription".toList :=
  (C9_unknown_tie_resolution [] ⟨some samplePresExtraction, [], []⟩
      ⟨some sampleLabExtraction, [], []⟩ samplePresExtraction sampleLabExtraction
      rfl rfl).2.1 (by decide)

lemma pyContains_infix_iff (hay needle : Str) :
    pyContains hay needle = true ↔ needle <:+: hay := by
  induction hay with
  | nil =>
    simp only [pyContains, List.isPrefixOf_iff_prefix]
    constructor
    · exact fun h => h.isInfix
    · intro h
      rcases h with ⟨s, t, hst⟩
      simp only [List.append_eq_nil] at hst
      simp [hst.1.2]
  | cons c t ih =>
    simp only [pyContains, Bool.or_eq_true, List.isPrefixOf_iff_prefix, ih,
      List.infix_cons_iff]

lemma pyContains_trans (a b c : Str) (h1 : pyContains a b = true)
    (h2 : pyContains b c = true) : pyContains a c = true :=
  (pyContains_infix_iff _ _).mpr
    (((pyContains_infix_iff _ _).mp h2).trans ((pyContains_infix_iff _ _).mp h1))

/-- Whether backend `name` yields an accepted result: `run name` returns
without raising and the validator (when present) passes. -/
def acceptsB {α : Type} (run : Str → Except Str α) (validator : Option (α → Bool))
    (name : Str) : Bool :=
  match run name with
  | .error _ => false
  | .ok r => validatorAccepts validator r

/-- The error entry `_run_with_backend_fallback` records for a rejected
backend. -/
def attemptError {α : Type} (run : Str → Except Str α) (name : Str) : Str :=
  match run name with
  | .error e => name ++ ": ".toList ++ e
  | .ok _ => name ++ ": resultado inválido".toList

lemma attemptError_contains {α : Type} (run : Str → Except Str α) (name : Str) :
    pyContains (attemptError run name) (name ++ ": ".toList) = true := by
  cases hrun : run name with
  | error e =>
    simp only [attemptError, hrun]
    exact pyContains_append_left _ _
  | ok r =>
    simp only [attemptError, hrun]
    have hsplit : name ++ ": resultado inválido".toList =
        (name ++ ": ".toList) ++ "resultado inválido".toList := by
      rw [List.append_assoc]
      rfl
    rw [hsplit]
    exact pyContains_append_left _ _

lemma fallbackGo_all_reject {α : Type} (run : Str → Except Str α)
    (validator : Option (α → Bool)) (task : Str) (fullOrder : List Str)
    (pending : List Str) :
    ∀ errors attempted, (∀ n ∈ pending, acceptsB run validator n = false) →
    fallbackGo run validator task fullOrder pending errors attempted =
      (Except.error (fallbackFailMessage task fullOrder
          (errors ++ pending.map (attemptError run))), attempted ++ pending) := by
  induction pending with
  | nil => intro errors attempted _; simp [fallbackGo]
  | cons name rest ih =>
    intro errors attempted h
    have hn := h name (List.mem_cons_self _ _)
    have hrest := fun n hn2 => h n (List.mem_cons_of_mem _ hn2)
    cases hrun : run name with
    | error e =>
      simp only [fallbackGo, hrun]
      rw [ih _ _ hrest]
      simp [attemptError, hrun, List.append_assoc]
    | ok r =>
      have hv : validatorAccepts validator r = false := by
        simpa [acceptsB, hrun] using hn
      simp only [fallbackGo, hrun, hv, Bool.false_eq_true, if_false]
      rw [ih _ _ hrest]
      simp [attemptError, hrun, List.append_assoc]

lemma fallbackGo_first_accept {α : Type} (run : Str → Except Str α)
    (validator : Option (α → Bool)) (task : Str) (fullOrder : List Str)
    (r : α) (name : Str)
    (post : List Str) (hrun : run name = Except.ok r)
    (hval : validatorAccepts validator r = true) (pre : List Str) :
    ∀ errors attempted, (∀ n ∈ pre, acceptsB run validator n = false) →
    fallbackGo run validator task fullOrder (pre ++ name :: post) errors attempted =
      (Except.ok (r, name), attempted ++ pre ++ [name]) := by
  induction pre with
  | nil =>
    intro errors attempted _
    simp [fallbackGo, hrun, hval]
  | cons m rest ih =>
    intro errors attempted h
    have hm := h m (List.mem_cons_self _ _)
    have hrest := fun n hn2 => h n (List.mem_cons_of_mem _ hn2)
    cases hrun2 : run m with
    | error e =>
      simp only [List.cons_append, fallbackGo, hrun2, List.append_eq]
      rw [ih _ _ hrest]
      simp [List.append_assoc]
    | ok r2 =>
      have hv : validatorAccepts validator r2 = false := by
        simpa [acceptsB, hrun2] using hm
      simp only [List.cons_append, fallbackGo, hrun2, hv, Bool.false_eq_true, if_false,
        List.append_eq]
      rw [ih _ _ hrest]
      simp [List.append_assoc]

lemma rwbf_success {α : Type} (run : Str → Except Str α)
    (validator : Option (α → Bool)) (task : Str) (pre : List Str) (name : Str)
    (post : List Str) (r : α) (hpre : ∀ n ∈ pre, acceptsB run validator n = false)
    (hrun : run name = Except.ok r) (hval : validatorAccepts validator r = true) :
    runWithBackendFallback run validator task (pre ++ name :: post) =
      (Except.ok (r, name), pre ++ [name]) := by
  unfold runWithBackendFallback
  rw [fallbackGo_first_accept run validator task _ r name post hrun hval pre [] [] hpre]
  simp

lemma rwbf_failure {α : Type} (run : Str → Except Str α)
    (validator : Option (α → Bool)) (task : Str) (order : List Str)
    (h : ∀ n ∈ order, acceptsB run validator n = false) :
    runWithBackendFallback run validator task order =
      (Except.error (fallbackFailMessage task order (order.map (attemptError run))),
        order) := by
  unfold runWithBackendFallback
  rw [fallbackGo_all_reject run validator task order order [] [] h]
  simp

lemma exists_first_accept_split (p : Str → Bool) (l : List Str)
    (hex : ∃ n ∈ l, p n = true) :
    ∃ pre x post, l = pre ++ x :: post ∧ p x = true ∧ ∀ y ∈ pre, p y = false := by
  induction l with
  | nil =>
    obtain ⟨n, hn, _⟩ := hex
    exact absurd hn (List.not_mem_nil n)
  | cons a t ih =>
    by_cases ha : p a = true
    · exact ⟨[], a, t, rfl, ha, by simp⟩
    · have hex2 : ∃ n ∈ t, p n = true := by
        obtain ⟨n, hn, hp⟩ := hex
        rcases List.mem_cons.mp hn with rfl | hn2
        · exact absurd hp ha
        · exact ⟨n, hn2, hp⟩
      obtain ⟨pre, x, post, heq, hx, hpre⟩ := ih hex2
      refine ⟨a :: pre, x, post, by rw [heq]; rfl, hx, ?_⟩
      intro y hy
      rcases List.mem_cons.mp hy with rfl | hy2
      · exact Bool.eq_false_iff.mpr ha
      · exact hpre y hy2

/-- A backend's prescription run is accepted: it returns a result that parsed
and has at least one medication. -/
def presAccepts (run : Str → Except Str PrescriptionExtraction) (name : Str) : Prop :=
  ∃ r, run name = Except.ok r ∧ r.parse_success = true ∧ r.medicamentos ≠ []

/-- A backend's lab run is accepted: it returns a result that parsed and has
at least one lab result. -/
def labAccepts (run : Str → Except Str LabResultExtraction) (name : Str) : Prop :=
  ∃ r, run name = Except.ok r ∧ r.parse_success = true ∧ r.resultados ≠ []

lemma presAccepts_iff (run : Str → Except Str PrescriptionExtraction) (name : Str) :
    presAccepts run name ↔ acceptsB run (some prescriptionValidator) name = true := by
  cases hrun : run name with
  | error e => simp [presAccepts, acceptsB, hrun]
  | ok r =>
    simp [presAccepts, acceptsB, hrun, validatorAccepts, prescriptionValidator,
      List.isEmpty_iff]

lemma labAccepts_iff (run : Str → Except Str LabResultExtraction) (name : Str) :
    labAccepts run name ↔ acceptsB run (some labValidator) name = true := by
  cases hrun : run name with
  | error e => simp [labAccepts, acceptsB, hrun]
  | ok r =>
    simp [labAccepts, acceptsB, hrun, validatorAccepts, labValidator,
      List.isEmpty_iff]

lemma acceptsB_elim {α : Type} (run : Str → Except Str α)
    (vald : Option (α → Bool)) (name : Str) (hx : acceptsB run vald name = true) :
    ∃ r, run name = Except.ok r ∧ validatorAccepts vald r = true := by
  cases hrun : run name with
  | error e => simp [acceptsB, hrun] at hx
  | ok r => exact ⟨r, rfl, by simpa [acceptsB, hrun] using hx⟩

lemma verifyPrescription_attempted_front
    (runP : Str → Except Str PrescriptionExtraction) (order : List Str) :
    ∃ k, k ≤ order.length ∧ (verifyPrescription runP order).2 = order.take k := by
  by_cases hex : ∃ n ∈ order, acceptsB runP (some prescriptionValidator) n = true
  · obtain ⟨pre, x, post, heq, hx, hpre⟩ := exists_first_accept_split _ order hex
    obtain ⟨r, hrx, hrv⟩ := acceptsB_elim _ _ _ hx
    have hrw := rwbf_success runP (some prescriptionValidator)
      "verify_prescription".toList pre x post r hpre hrx hrv
    refine ⟨pre.length + 1, ?_, ?_⟩
    · rw [heq]
      simp [List.length_append]
    · rw [heq]
      simp only [verifyPrescription, hrw]
      rw [List.take_append 1]
      simp
  · have hall : ∀ n ∈ order, acceptsB runP (some prescriptionValidator) n = false := by
      intro n hn
      exact Bool.eq_false_iff.mpr fun hc => hex ⟨n, hn, hc⟩
    have hrw := rwbf_failure runP (some prescriptionValidator)
      "verify_prescription".toList order hall
    exact ⟨order.length, le_refl _, by simp only [verifyPrescription, hrw]; simp⟩

lemma verifyLab_attempted_front
    (runL : Str → Except Str LabResultExtraction) (order : List Str) :
    ∃ k, k ≤ order.length ∧ (verifyLab runL order).2 = order.take k := by
  by_cases hex : ∃ n ∈ order, acceptsB runL (some labValidator) n = true
  · obtain ⟨pre, x, post, heq, hx, hpre⟩ := exists_first_accept_split _ order hex
    obtain ⟨r, hrx, hrv⟩ := acceptsB_elim _ _ _ hx
    have hrw := rwbf_success runL (some labValidator)
      "verify_lab".toList pre x post r hpre hrx hrv
    refine ⟨pre.length + 1, ?_, ?_⟩
    · rw [heq]
      simp [List.length_append]
    · rw [heq]
      simp only [verifyLab, hrw]
      rw [List.take_append 1]
      simp
  · have hall : ∀ n ∈ order, acceptsB runL (some labValidator) n = false := by
      intro n hn
      exact Bool.eq_false_iff.mpr fun hc => hex ⟨n, hn, hc⟩
    have hrw := rwbf_failure runL (some labValidator) "verify_lab".toList order hall
    exact ⟨order.length, le_refl _, by simp only [verifyLab, hrw]; simp⟩

/-- C7: prescription (and symmetrically lab) verification attempts the
configured backends strictly in order, each at most once, accepting the first
backend whose run parses with at least one item (a parsed-but-empty result is
invalid and falls through); when every backend is rejected, the verifier
returns a structured failure — extraction `none` and an error text naming
every attempted backend with its specific failure — instead of raising. -/
theorem C7_verification_backend_fallback
    (runP : Str → Except Str PrescriptionExtraction)
    (runL : Str → Except Str LabResultExtraction)
    (order : List Str) :
    (∃ k, k ≤ order.length ∧ (verifyPrescription runP order).2 = order.take k) ∧
    (order.Nodup → (verifyPrescription runP order).2.Nodup) ∧
    (∀ pre name post r, order = pre ++ name :: post →
      (∀ n ∈ pre, ¬ presAccepts runP n) →
      runP name = Except.ok r → r.parse_success = true → r.medicamentos ≠ [] →
      (verifyPrescription runP order).1 = ⟨some r, name, []⟩ ∧
      (verifyPrescription runP order).2 = pre ++ [name]) ∧
    ((∀ n ∈ order, ¬ presAccepts runP n) →
      (verifyPrescription runP order).1.extraction = none ∧
      (verifyPrescription runP order).2 = order ∧
      ∀ n ∈ order,
        pyContains (verifyPrescription runP order).1.error (n ++ ": ".toList) = true) ∧
    (∀ pre name post r, order = pre ++ name :: post →
      (∀ n ∈ pre, ¬ labAccepts runL n) →
      runL name = Except.ok r → r.parse_success = true → r.resultados ≠ [] →
      (verifyLab runL order).1 = ⟨some r, name, []⟩ ∧
      (verifyLab runL order).2 = pre ++ [name]) ∧
    ((∀ n ∈ order, ¬ labAccepts runL n) →
      (verifyLab runL order).1.extraction = none ∧
      (verifyLab runL order).2 = order ∧
      ∀ n ∈ order,
        pyContains (verifyLab runL order).1.error (n ++ ": ".toList) = true) := by
  refine ⟨verifyPrescription_attempted_front runP order, ?_, ?_, ?_, ?_, ?_⟩
  · intro hnd
    obtain ⟨k, _, heq⟩ := verifyPrescription_attempted_front runP order
    rw [heq]
    exact (List.take_sublist k order).nodup hnd
  · intro pre name post r heq hpre hrun hparse hne
    have hpre' : ∀ n ∈ pre, acceptsB runP (some prescriptionValidator) n = false := by
      intro n hn
      exact Bool.eq_false_iff.mpr fun hc =>
        hpre n hn ((presAccepts_iff runP n).mpr hc)
    have hval : validatorAccepts (some prescriptionValidator) r = true := by
      simp [validatorAccepts, prescriptionValidator, hparse, List.isEmpty_iff, hne]
    have hrw := rwbf_success runP (some prescriptionValidator)
      "verify_prescription".toList pre name post r hpre' hrun hval
    rw [heq]
    constructor <;> simp only [verifyPrescription, hrw]
  · intro hall
    have hall' : ∀ n ∈ order, acceptsB runP (some prescriptionValidator) n = false := by
      intro n hn
      exact Bool.eq_false_iff.mpr fun hc =>
        hall n hn ((presAccepts_iff runP n).mpr hc)
    have hrw := rwbf_failure runP (some prescriptionValidator)
      "verify_prescription".toList order hall'
    refine ⟨by simp only [verifyPrescription, hrw], by simp only [verifyPrescription, hrw], ?_⟩
    intro n hn
    simp only [verifyPrescription, hrw]
    have hmapne : order.map (attemptError runP) ≠ [] := by
      have : order ≠ [] := List.ne_nil_of_mem hn
      simp [this]
    show pyContains (fallbackFailMessage "verify_prescription".toList order
      (order.map (attemptError runP))) (n ++ ": ".toList) = true
    simp only [fallbackFailMessage, if_neg hmapne]
    refine pyContains_append_right _ _ _ ?_
    exact pyContains_trans _ _ _
      (pyContains_pyJoin_mem _ _ _ (List.mem_map_of_mem _ hn))
      (attemptError_contains runP n)
  · intro pre name post r heq hpre hrun hparse hne
    have hpre' : ∀ n ∈ pre, acceptsB runL (some labValidator) n = false := by
      intro n hn
      exact Bool.eq_false_iff.mpr fun hc =>
        hpre n hn ((labAccepts_iff runL n).mpr hc)
    have hval : validatorAccepts (some labValidator) r = true := by
      simp [validatorAccepts, labValidator, hparse, List.isEmpty_iff, hne]
    have hrw := rwbf_success runL (some labValidator)
      "verify_lab".toList pre name post r hpre' hrun hval
    rw [heq]
    constructor <;> simp only [verifyLab, hrw]
  · intro hall
    have hall' : ∀ n ∈ order, acceptsB runL (some labValidator) n = false := by
      intro n hn
      exact Bool.eq_false_iff.mpr fun hc =>
        hall n hn ((labAccepts_iff runL n).mpr hc)
    have hrw := rwbf_failure runL (some labValidator) "verify_lab".toList order hall'
    refine ⟨by simp only [verifyLab, hrw], by simp only [verifyLab, hrw], ?_⟩
    intro n hn
    simp only [verifyLab, hrw]
    have hmapne : order.map (attemptError runL) ≠ [] := by
      have : order ≠ [] := List.ne_nil_of_mem hn
      simp [this]
    show pyContains (fallbackFailMessage "verify_lab".toList order
      (order.map (attemptError runL))) (n ++ ": ".toList) = true
    simp only [fallbackFailMessage, if_neg hmapne]
    refine pyContains_append_right _ _ _ ?_
    exact pyContains_trans _ _ _
      (pyContains_pyJoin_mem _ _ _ (List.mem_map_of_mem _ hn))
      (attemptError_contains runL n)

/-- Backend order used by the C7 witness. -/
def c7Order : List Str := ["modal".toList, "transformers".toList]

/-- A parsed-but-empty prescription extraction (invalid for the verifier). -/
def c7EmptyExtraction : PrescriptionExtraction := ⟨[], "rawempty".toList, true⟩

/-- A parsed prescription extraction with one medication. -/
def c7GoodExtraction : PrescriptionExtraction :=
  ⟨[⟨"LOSARTAN".toList, "50MG".toList, [], [], []⟩], "rawgood".toList, true⟩

/-- Witness oracle: the first backend parses but yields zero medications, the
second succeeds. -/
def c7RunP (name : Str) : Except Str PrescriptionExtraction :=
  if name = "modal".toList then Except.ok c7EmptyExtraction
  else Except.ok c7GoodExtraction

/-- Witness oracle for the lab side: every backend raises. -/
def c7RunL (_name : Str) : Except Str LabResultExtraction :=
  Except.error "inference failed".toList

/-- C7 witness: with the empty-then-good prescription oracle the second
backend's result is accepted after the first falls through, and with the
always-raising lab oracle the verifier returns a structured failure naming
both backends. -/
theorem C7_verification_backend_fallback_witness :
    ((verifyPrescription c7RunP c7Order).1 =
        ⟨some c7GoodExtraction, "transformers".toList, []⟩ ∧
      (verifyPrescription c7RunP c7Order).2 =
        ["modal".toList] ++ ["transformers".toList]) ∧
    ((verifyLab c7RunL c7Order).1.extraction = none ∧
      (verifyLab c7RunL c7Order).2 = c7Order ∧
      ∀ n ∈ c7Order,
        pyContains (verifyLab c7RunL c7Order).1.error (n ++ ": ".toList) = true) := by
  constructor
  · exact (C7_verification_backend_fallback c7RunP c7RunL c7Order).2.2.1
      ["modal".toList] "transformers".toList [] c7GoodExtraction rfl
      (by
        intro n hn
        have hn' : n = "modal".toList := by simpa [c7Order] using hn
        subst hn'
        rintro ⟨r, hr, _hp, hne⟩
        have hre : c7EmptyExtraction = r := by simpa [c7RunP] using hr
        exact hne (by rw [← hre]; rfl))
      rfl rfl (by decide)
  · exact (C7_verification_backend_fallback c7RunP c7RunL c7Order).2.2.2.2.2
      (by
        intro n _hn
        rintro ⟨r, hr, _⟩
        simp [c7RunL] at hr)

/-! ## src/pipelines/document_router.py -/

/-- `IngestedDocument` from src/io/document_ingestion.py. -/
structure IngestedDocument where
  file_path : Str
  source : Str
  extracted_text : Str
  quality_score : ℚ
  warnings : List Str
  media_path : Str
deriving DecidableEq

/-- `RouteDecision` from src/models.py. -/
structure RouteDecision where
  kind : Str
  confidence : ℚ
  method : Str
  reasons : List Str
  raw_response : Str
deriving DecidableEq

/-- Combining diacritical marks (the `Mn`-category characters produced by NFD
for the Latin range). -/
def combiningMark (c : Char) : Bool := 768 ≤ c.toNat && c.toNat ≤ 879

/-- Base letter of an NFD canonical decomposition, for the Latin-1 letters
this application processes. -/
def nfdBaseTable : List (Char × Char) :=
  [('À','A'),('Á','A'),('Â','A'),('Ã','A'),('Ä','A'),('Å','A'),('Ç','C'),
   ('È','E'),('É','E'),('Ê','E'),('Ë','E'),('Ì','I'),('Í','I'),('Î','I'),
   ('Ï','I'),('Ñ','N'),('Ò','O'),('Ó','O'),('Ô','O'),('Õ','O'),('Ö','O'),
   ('Ù','U'),('Ú','U'),('Û','U'),('Ü','U'),('Ý','Y'),
   ('à','a'),('á','a'),('â','a'),('ã','a'),('ä','a'),('å','a'),('ç','c'),
   ('è','e'),('é','e'),('ê','e'),('ë','e'),('ì','i'),('í','i'),('î','i'),
   ('ï','i'),('ñ','n'),('ò','o'),('ó','o'),('ô','o'),('õ','o'),('ö','o'),
   ('ù','u'),('ú','u'),('û','u'),('ü','u'),('ý','y'),('ÿ','y')]

/-- Base of one character after NFD decomposition. -/
def nfdBase (c : Char) : Char := (nfdBaseTable.lookup c).getD c

/-- `_normalize_text` (src/pipelines/document_router.py lines 57-62):
NFD-decompose, drop combining marks, uppercase, collapse whitespace runs,
strip. -/
def normalizeText (text : Str) : Str :=
  pyStrip (collapseWS (pyUpper ((text.filter fun c => !combiningMark c).map nfdBase)))

/-- `PRESCRIPTION_HINTS` weights. -/
def PRESCRIPTION_HINTS : List (Str × ℚ) :=
  [("RECETA".toList, 2), ("FORMULA MEDICA".toList, 2), ("DOSIS".toList, 1),
   ("CADA".toList, 1), ("HORAS".toList, 1), ("TABLETA".toList, 1),
   ("CAPSULA".toList, 1), ("MEDICAMENTO".toList, 1), ("MG".toList, 3/5),
   ("ML".toList, 3/5)]

/-- `LAB_HINTS` weights. -/
def LAB_HINTS : List (Str × ℚ) :=
  [("LABORATORIO".toList, 2), ("RESULTADOS".toList, 3/2), ("RANGO".toList, 1),
   ("REFERENCIA".toList, 1), ("HEMOGLOBINA".toList, 2), ("HEMATOCRITO".toList, 2),
   ("GLUCOSA".toList, 3/2), ("LEUCOCITOS".toList, 3/2), ("NORMAL".toList, 4/5),
   ("ALTO".toList, 4/5), ("BAJO".toList, 4/5)]

/-- `_score_hints` (lines 65-72): sum the weights of the hint tokens contained
in the text, collecting the hits. -/
def scoreHints (text : Str) (hints : List (Str × ℚ)) : ℚ × List Str :=
  hints.foldl
    (fun acc tw => if pyContains text tw.1 then (acc.1 + tw.2, acc.2 ++ [tw.1]) else acc)
    (0, [])

/-- Round-half-even to an integer (the rounding `f"{x:.2f}"` applies),
transported to `ℚ`. -/
def roundHalfEven (q : ℚ) : Int :=
  let f : Int := Int.floor q
  let frac : ℚ := q - f
  if frac < 1/2 then f
  else if 1/2 < frac then f + 1
  else if f % 2 = 0 then f else f + 1

/-- Python `f"{x:.2f}"` on the rational model of the score. -/
def fmt2 (q : ℚ) : Str :=
  let n : Int := roundHalfEven (q * 100)
  let sign : Str := if n < 0 then "-".toList else []
  let m : Nat := n.natAbs
  let fracDigits : Str :=
    if m % 100 < 10 then '0' :: Nat.toDigits 10 (m % 100) else Nat.toDigits 10 (m % 100)
  sign ++ Nat.toDigits 10 (m / 100) ++ ".".toList ++ fracDigits

/-- `_HeuristicScore` (lines 50-54). -/
structure HeuristicScore where
  kind : Str
  confidence : ℚ
  reasons : List Str
deriving DecidableEq

/-- `', '.join(hits[:6]) or "ninguna"`. -/
def hitsWords (hits : List Str) : Str :=
  let joined := pyJoin ", ".toList (hits.take 6)
  if joined = [] then "ninguna".toList else joined

/-- `_heuristic_route` (src/pipelines/document_router.py lines 75-124). -/
def heuristicRoute (ingested : IngestedDocument) : HeuristicScore :=
  if ingested.source = "unsupported".toList ∨ ingested.source = "pdf_no_text".toList then
    ⟨"unknown".toList, 0,
      ["No hay evidencia textual utilizable para ruteo heurístico.".toList]⟩
  else
    let text := normalizeText ingested.extracted_text
    if text = [] then
      ⟨"unknown".toList, 0,
        ["Sin texto extraído; se requiere clasificación con modelo.".toList]⟩
    else
      let pres := scoreHints text PRESCRIPTION_HINTS
      let lab := scoreHints text LAB_HINTS
      let total := pres.1 + lab.1
      if total ≤ 0 then
        ⟨"unknown".toList, 0,
          ["No se detectaron palabras clave fuertes para receta o laboratorio.".toList]⟩
      else if pres.1 = lab.1 then
        ⟨"unknown".toList, 2/5,
          ["Puntaje empatado receta=".toList ++ fmt2 pres.1 ++ ", lab=".toList ++
            fmt2 lab.1 ++ ".".toList]⟩
      else
        let kind := if lab.1 < pres.1 then "prescription".toList else "lab".toList
        let best := max pres.1 lab.1
        let margin := |pres.1 - lab.1| / total
        let confidence := min (19/20) (9/20 + (11/20) * margin + (1/10) * min best 4 / 4)
        ⟨kind, confidence,
          ["Puntaje receta=".toList ++ fmt2 pres.1 ++ "; lab=".toList ++
            fmt2 lab.1 ++ ".".toList,
          if kind = "prescription".toList then
            "Palabras receta: ".toList ++ hitsWords pres.2 ++ ".".toList
          else "Palabras lab: ".toList ++ hitsWords lab.2 ++ ".".toList]⟩

/-- `ROUTING_FALLBACK_THRESHOLD`. -/
def ROUTING_FALLBACK_THRESHOLD : ℚ := 62/100

/-- `route_document` (src/pipelines/document_router.py lines 201-237).  The
model classifier `_classify_with_model` never raises (it converts its own
errors into a `RouteDecision`), so the supplied backend is abstracted by the
`RouteDecision` that classification would produce; the returned flag records
whether the model fallback was invoked. -/
def routeDocument (ingested : IngestedDocument)
    (backend : Option RouteDecision) : RouteDecision × Bool :=
  let h := heuristicRoute ingested
  let decision : RouteDecision :=
    ⟨h.kind, h.confidence, "heuristic".toList, h.reasons, []⟩
  if ROUTING_FALLBACK_THRESHOLD ≤ h.confidence then (decision, false)
  else
    match backend with
    | none =>
      ({ decision with
          reasons := decision.reasons ++
            ["Sin backend disponible para fallback de clasificación.".toList] }, false)
    | some fallback =>
      if fallback.kind ≠ "unknown".toList then
        ({ fallback with
            reasons :=
              ("Fallback activado por baja confianza heurística (".toList ++
                fmt2 h.confidence ++ " < ".toList ++
                fmt2 ROUTING_FALLBACK_THRESHOLD ++ ").".toList) ::
                fallback.reasons }, true)
      else
        ({ decision with
            reasons := decision.reasons ++
              ["Fallback de clasificación no logró una ruta confiable; se mantiene ruta desconocida.".toList],
            raw_response :=
              if fallback.raw_response ≠ [] then fallback.raw_response
              else decision.raw_response }, true)


lemma heuristicRoute_eval (ing : IngestedDocument)
    (hsrc : ¬ (ing.source = "unsupported".toList ∨ ing.source = "pdf_no_text".toList))
    (htext : normalizeText ing.extracted_text ≠ []) :
    heuristicRoute ing =
      (if (scoreHints (normalizeText ing.extracted_text) PRESCRIPTION_HINTS).1 +
          (scoreHints (normalizeText ing.extracted_text) LAB_HINTS).1 ≤ 0 then
        ⟨"unknown".toList, 0,
          ["No se detectaron palabras clave fuertes para receta o laboratorio.".toList]⟩
      else if (scoreHints (normalizeText ing.extracted_text) PRESCRIPTION_HINTS).1 =
          (scoreHints (normalizeText ing.extracted_text) LAB_HINTS).1 then
        ⟨"unknown".toList, 2/5,
          ["Puntaje empatado receta=".toList ++
            fmt2 (scoreHints (normalizeText ing.extracted_text) PRESCRIPTION_HINTS).1 ++
            ", lab=".toList ++
            fmt2 (scoreHints (normalizeText ing.extracted_text) LAB_HINTS).1 ++
            ".".toList]⟩
      else
        ⟨if (scoreHints (normalizeText ing.extracted_text) LAB_HINTS).1 <
            (scoreHints (normalizeText ing.extracted_text) PRESCRIPTION_HINTS).1 then
            "prescription".toList else "lab".toList,
          min (19/20)
            (9/20 +
              (11/20) *
                (|(scoreHints (normalizeText ing.extracted_text) PRESCRIPTION_HINTS).1 -
                    (scoreHints (normalizeText ing.extracted_text) LAB_HINTS).1| /
                  ((scoreHints (normalizeText ing.extracted_text) PRESCRIPTION_HINTS).1 +
                    (scoreHints (normalizeText ing.extracted_text) LAB_HINTS).1)) +
              (1/10) *
                min (max (scoreHints (normalizeText ing.extracted_text) PRESCRIPTION_HINTS).1
                  (scoreHints (normalizeText ing.extracted_text) LAB_HINTS).1) 4 / 4),
          ["Puntaje receta=".toList ++
            fmt2 (scoreHints (normalizeText ing.extracted_text) PRESCRIPTION_HINTS).1 ++
            "; lab=".toList ++
            fmt2 (scoreHints (normalizeText ing.extracted_text) LAB_HINTS).1 ++
            ".".toList,
          if (if (scoreHints (normalizeText ing.extracted_text) LAB_HINTS).1 <
              (scoreHints (normalizeText ing.extracted_text) PRESCRIPTION_HINTS).1 then
              "prescription".toList else "lab".toList) = "prescription".toList then
            "Palabras receta: ".toList ++
              hitsWords (scoreHints (normalizeText ing.extracted_text)
                PRESCRIPTION_HINTS).2 ++ ".".toList
          else
            "Palabras lab: ".toList ++
              hitsWords (scoreHints (normalizeText ing.extracted_text)
                LAB_HINTS).2 ++ ".".toList]⟩ : HeuristicScore) := by
  simp only [heuristicRoute, if_neg hsrc, if_neg htext]

/-- C5: when the heuristic routing confidence reaches the 0.62 threshold,
`route_document` returns the heuristic decision (method "heuristic")
unchanged and identical for every backend argument, with no model
invocation; conversely the model fallback is invoked only when the heuristic
confidence is strictly below 0.62 and a backend was supplied. -/
theorem C5_routing_fallback_gate (ing : IngestedDocument)
    (backend : Option RouteDecision) :
    ((62/100 : ℚ) ≤ (heuristicRoute ing).confidence →
      routeDocument ing backend =
        (⟨(heuristicRoute ing).kind, (heuristicRoute ing).confidence,
          "heuristic".toList, (heuristicRoute ing).reasons, []⟩, false) ∧
      routeDocument ing backend = routeDocument ing none) ∧
    ((routeDocument ing backend).2 = true →
      (heuristicRoute ing).confidence < 62/100 ∧ backend.isSome = true) := by
  constructor
  · intro h
    constructor <;> simp [routeDocument, ROUTING_FALLBACK_THRESHOLD, h]
  · intro hinv
    by_cases hc : ROUTING_FALLBACK_THRESHOLD ≤ (heuristicRoute ing).confidence
    · simp [routeDocument, hc] at hinv
    · refine ⟨not_le.mp (by simpa [ROUTING_FALLBACK_THRESHOLD] using hc), ?_⟩
      cases backend with
      | none => simp [routeDocument, hc] at hinv
      | some fb => rfl

/-- High-confidence prescription-looking document for the C5 witness. -/
def c5Doc : IngestedDocument :=
  ⟨"receta.pdf".toList, "text_pdf".toList,
    "RECETA FORMULA MEDICA DOSIS".toList, 7/10, [], []⟩

/-- A model decision the backend would return, used to show independence. -/
def c5ModelDecision : RouteDecision :=
  ⟨"lab".toList, 9/10, "model_fallback".toList, [], []⟩

lemma c5Doc_confidence : (62/100 : ℚ) ≤ (heuristicRoute c5Doc).confidence := by
  have hsrc : ¬ (c5Doc.source = "unsupported".toList ∨
      c5Doc.source = "pdf_no_text".toList) := by decide
  have htext : normalizeText c5Doc.extracted_text ≠ [] := by decide
  have hps : (scoreHints (normalizeText c5Doc.extracted_text)
      PRESCRIPTION_HINTS).1 = 5 := by
    show (0:ℚ) + 2 + 2 + 1 = 5
    norm_num
  have hls : (scoreHints (normalizeText c5Doc.extracted_text) LAB_HINTS).1 = 0 := rfl
  have htot : ¬ ((scoreHints (normalizeText c5Doc.extracted_text)
      PRESCRIPTION_HINTS).1 +
      (scoreHints (normalizeText c5Doc.extracted_text) LAB_HINTS).1 ≤ 0) := by
    rw [hps, hls]
    norm_num
  have hne : ¬ ((scoreHints (normalizeText c5Doc.extracted_text)
      PRESCRIPTION_HINTS).1 =
      (scoreHints (normalizeText c5Doc.extracted_text) LAB_HINTS).1) := by
    rw [hps, hls]
    norm_num
  rw [heuristicRoute_eval c5Doc hsrc htext, if_neg htot, if_neg hne]
  show (62/100 : ℚ) ≤ min (19/20) _
  rw [hps, hls]
  rw [show |(5:ℚ) - 0| = 5 by rw [abs_of_nonneg] <;> norm_num,
    show min (max (5:ℚ) 0) 4 = 4 by rw [max_eq_left, min_eq_right] <;> norm_num]
  norm_num

/-- C5 witness: the document scoring 5.0 on prescription keywords routes
heuristically at confidence 0.95 ≥ 0.62, identically with and without a
backend. -/
theorem C5_routing_fallback_gate_witness :
    routeDocument c5Doc (some c5ModelDecision) =
      (⟨(heuristicRoute c5Doc).kind, (heuristicRoute c5Doc).confidence,
        "heuristic".toList, (heuristicRoute c5Doc).reasons, []⟩, false) ∧
    routeDocument c5Doc (some c5ModelDecision) = routeDocument c5Doc none :=
  (C5_routing_fallback_gate c5Doc (some c5ModelDecision)).1 c5Doc_confidence

lemma scoreHints_acc_le (text : Str) (hints : List (Str × ℚ))
    (hpos : ∀ p ∈ hints, 0 ≤ p.2) :
    ∀ acc : ℚ × List Str,
      acc.1 ≤ (hints.foldl
        (fun acc tw =>
          if pyContains text tw.1 then (acc.1 + tw.2, acc.2 ++ [tw.1]) else acc)
        acc).1 := by
  induction hints with
  | nil => intro acc; simp
  | cons p t ih =>
    intro acc
    have hp := hpos p (List.mem_cons_self _ _)
    have ht := fun q hq => hpos q (List.mem_cons_of_mem _ hq)
    simp only [List.foldl_cons]
    by_cases hc : pyContains text p.1 = true
    · simp only [hc, if_true]
      calc acc.1 ≤ acc.1 + p.2 := by linarith
        _ ≤ _ := ih ht (acc.1 + p.2, acc.2 ++ [p.1])
    · simp only [hc, if_false]
      exact ih ht acc

lemma scoreHints_nonneg (text : Str) (hints : List (Str × ℚ))
    (hpos : ∀ p ∈ hints, 0 ≤ p.2) : 0 ≤ (scoreHints text hints).1 :=
  scoreHints_acc_le text hints hpos (0, [])

lemma prescription_hints_nonneg : ∀ p ∈ PRESCRIPTION_HINTS, (0:ℚ) ≤ p.2 := by
  intro p hp
  fin_cases hp <;> norm_num

lemma lab_hints_nonneg : ∀ p ∈ LAB_HINTS, (0:ℚ) ≤ p.2 := by
  intro p hp
  fin_cases hp <;> norm_num

/-- C6: on a usable document, the heuristic router returns `unknown` when
both keyword scores are zero, returns `unknown` with confidence at most 0.4
on an exactly tied nonzero score (never guessing a side), and otherwise
returns the higher-scoring kind with confidence
`min(0.95, 0.45 + 0.55*margin + 0.1*min(best,4)/4)` where
`margin = |prescription - lab| / (prescription + lab)`; the heuristic
confidence never exceeds 0.95. -/
theorem C6_heuristic_router (ing : IngestedDocument)
    (hsrc : ¬ (ing.source = "unsupported".toList ∨ ing.source = "pdf_no_text".toList))
    (htext : normalizeText ing.extracted_text ≠ []) :
    ((scoreHints (normalizeText ing.extracted_text) PRESCRIPTION_HINTS).1 = 0 ∧
        (scoreHints (normalizeText ing.extracted_text) LAB_HINTS).1 = 0 →
      (heuristicRoute ing).kind = "unknown".toList) ∧
    ((scoreHints (normalizeText ing.extracted_text) PRESCRIPTION_HINTS).1 =
        (scoreHints (normalizeText ing.extracted_text) LAB_HINTS).1 ∧
      (scoreHints (normalizeText ing.extracted_text) PRESCRIPTION_HINTS).1 ≠ 0 →
      (heuristicRoute ing).kind = "unknown".toList ∧
      (heuristicRoute ing).confidence ≤ 2/5) ∧
    ((scoreHints (normalizeText ing.extracted_text) PRESCRIPTION_HINTS).1 ≠
        (scoreHints (normalizeText ing.extracted_text) LAB_HINTS).1 →
      (heuristicRoute ing).kind =
        (if (scoreHints (normalizeText ing.extracted_text) LAB_HINTS).1 <
            (scoreHints (normalizeText ing.extracted_text) PRESCRIPTION_HINTS).1
          then "prescription".toList else "lab".toList) ∧
      (heuristicRoute ing).confidence =
        min (19/20)
          (9/20 +
            (11/20) *
              (|(scoreHints (normalizeText ing.extracted_text) PRESCRIPTION_HINTS).1 -
                  (scoreHints (normalizeText ing.extracted_text) LAB_HINTS).1| /
                ((scoreHints (normalizeText ing.extracted_text) PRESCRIPTION_HINTS).1 +
                  (scoreHints (normalizeText ing.extracted_text) LAB_HINTS).1)) +
            (1/10) *
              min (max (scoreHints (normalizeText ing.extracted_text) PRESCRIPTION_HINTS).1
                (scoreHints (normalizeText ing.extracted_text) LAB_HINTS).1) 4 / 4)) ∧
    (heuristicRoute ing).confidence ≤ 19/20 := by
  have hpn : 0 ≤ (scoreHints (normalizeText ing.extracted_text) PRESCRIPTION_HINTS).1 :=
    scoreHints_nonneg _ _ prescription_hints_nonneg
  have hln : 0 ≤ (scoreHints (normalizeText ing.extracted_text) LAB_HINTS).1 :=
    scoreHints_nonneg _ _ lab_hints_nonneg
  have hroute := heuristicRoute_eval ing hsrc htext
  refine ⟨?_, ?_, ?_, ?_⟩
  · rintro ⟨hz1, hz2⟩
    rw [hroute, hz1, hz2]
    norm_num
  · rintro ⟨heq, hne⟩
    have hpos : 0 < (scoreHints (normalizeText ing.extracted_text)
        PRESCRIPTION_HINTS).1 := lt_of_le_of_ne hpn (Ne.symm hne)
    have htot : ¬ ((scoreHints (normalizeText ing.extracted_text)
        PRESCRIPTION_HINTS).1 +
        (scoreHints (normalizeText ing.extracted_text) LAB_HINTS).1 ≤ 0) := by
      rw [← heq]
      linarith
    rw [hroute, if_neg htot, if_pos heq]
    exact ⟨rfl, le_refl _⟩
  · intro hne
    have htot : ¬ ((scoreHints (normalizeText ing.extracted_text)
        PRESCRIPTION_HINTS).1 +
        (scoreHints (normalizeText ing.extracted_text) LAB_HINTS).1 ≤ 0) := by
      intro hle
      have h1 : (scoreHints (normalizeText ing.extracted_text)
          PRESCRIPTION_HINTS).1 = 0 := by linarith
      have h2 : (scoreHints (normalizeText ing.extracted_text) LAB_HINTS).1 = 0 := by
        linarith
      exact hne (by rw [h1, h2])
    rw [hroute, if_neg htot, if_neg hne]
    exact ⟨rfl, rfl⟩
  · rw [hroute]
    by_cases htot : (scoreHints (normalizeText ing.extracted_text)
        PRESCRIPTION_HINTS).1 +
        (scoreHints (normalizeText ing.extracted_text) LAB_HINTS).1 ≤ 0
    · rw [if_pos htot]
      norm_num
    · rw [if_neg htot]
      by_cases heq : (scoreHints (normalizeText ing.extracted_text)
          PRESCRIPTION_HINTS).1 =
          (scoreHints (normalizeText ing.extracted_text) LAB_HINTS).1
      · rw [if_pos heq]
        norm_num
      · rw [if_neg heq]
        exact min_le_left _ _

/-- Tied-keyword document for the C6 witness: "CADA" scores 1.0 prescription,
"RANGO" scores 1.0 lab. -/
def c6Doc : IngestedDocument :=
  ⟨"doc.pdf".toList, "text_pdf".toList, "CADA RANGO".toList, 7/10, [], []⟩

/-- C6 witness: the tied nonzero document routes to `unknown` with confidence
at most 0.4. -/
theorem C6_heuristic_router_witness :
    (heuristicRoute c6Doc).kind = "unknown".toList ∧
    (heuristicRoute c6Doc).confidence ≤ 2/5 :=
  (C6_heuristic_router c6Doc (by decide) (by decide)).2.1
    ⟨rfl, by
      show ¬ ((0:ℚ) + 1 = 0)
      norm_num⟩

/-! ## src/api/drug_matcher.py: normalization -/

/-- ASCII digit (regex `\d` in this model). -/
def isDigit (c : Char) : Bool := '0' ≤ c && c ≤ '9'

/-- `FORM_WORDS` (src/api/drug_matcher.py lines 32-45). -/
def FORM_WORDS : List Str :=
  ["TABLETA".toList, "TABLETAS".toList, "TAB".toList, "TABS".toList,
   "CAPSULA".toList, "CAPSULAS".toList, "CAP".toList, "CAPS".toList,
   "SOLUCION".toList, "SOL".toList,
   "JARABE".toList, "JAR".toList,
   "AMPOLLA".toList, "AMP".toList,
   "INYECTABLE".toList, "INY".toList,
   "CREMA".toList, "GEL".toList, "POMADA".toList,
   "GOTAS".toList, "SUSPENSION".toList, "SUSP".toList,
   "COMPRIMIDO".toList, "COMPRIMIDOS".toList, "COMP".toList,
   "RECUBIERTA".toList, "RECUBIERTAS".toList,
   "LIBERACION".toList, "PROLONGADA".toList,
   "ORAL".toList, "TOPICO".toList, "TOPICA".toList]

/-- The unit alternation `(MG|ML|G|MCG|UI|%)` of `DOSAGE_PATTERN`, tried left
to right, case-insensitively, at the head of `l`; returns the matched text
and the remainder. -/
def dosageUnitHere (l : Str) : Option (Str × Str) :=
  if pyUpper (l.take 2) = "MG".toList then some (l.take 2, l.drop 2)
  else if pyUpper (l.take 2) = "ML".toList then some (l.take 2, l.drop 2)
  else if pyUpper (l.take 1) = "G".toList then some (l.take 1, l.drop 1)
  else if pyUpper (l.take 3) = "MCG".toList then some (l.take 3, l.drop 3)
  else if pyUpper (l.take 2) = "UI".toList then some (l.take 2, l.drop 2)
  else if pyUpper (l.take 1) = "%".toList then some (l.take 1, l.drop 1)
  else none

/-- Match `DOSAGE_PATTERN` = `(\d+(?:[.,]\d+)?)\s*(MG|ML|G|MCG|UI|%)` at the
head of `l`: greedy digit run, optional `[.,]digits`, whitespace, then the
unit alternation.  (Greedy commitment is safe here: no continuation of this
pattern can start with a digit, `.`/`,`, or whitespace, so the regex engine
never benefits from backtracking.)  Returns (group 1, group 2, rest). -/
def dosageMatchHere (l : Str) : Option (Str × Str × Str) :=
  let ds := l.takeWhile isDigit
  if ds = [] then none
  else
    let r1 := l.dropWhile isDigit
    let fracStep : Str × Str :=
      match r1 with
      | c :: t =>
        if c = '.' ∨ c = ',' then
          let fs := t.takeWhile isDigit
          if fs = [] then (([] : Str), r1) else (c :: fs, t.dropWhile isDigit)
        else (([] : Str), r1)
      | [] => (([] : Str), r1)
    let r3 := fracStep.2.dropWhile pyIsSpace
    match dosageUnitHere r3 with
    | none => none
    | some (u, rest) => some (ds ++ fracStep.1, u, rest)

/-- `DOSAGE_PATTERN.search`: the leftmost match's two groups. -/
def dosageSearch : Str → Option (Str × Str)
  | [] => none
  | c :: rest =>
    match dosageMatchHere (c :: rest) with
    | some (v, u, _) => some (v, u)
    | none => dosageSearch rest

/-- `DOSAGE_PATTERN.sub("", s)`: remove every non-overlapping match, scanning
left to right; fuel-indexed (each step consumes at least one character). -/
def dosageSubF : Nat → Str → Str
  | 0, _ => []
  | _ + 1, [] => []
  | fuel + 1, c :: rest =>
    match dosageMatchHere (c :: rest) with
    | some (_, _, after) => dosageSubF fuel after
    | none => c :: dosageSubF fuel rest

/-- `DOSAGE_PATTERN.sub("", s)`. -/
def dosageSub (s : Str) : Str := dosageSubF s.length s

/-- `_normalize_drug_name` (src/api/drug_matcher.py lines 75-110): uppercase
and strip, extract the first dosage (comma normalised to dot, unit
uppercased) and delete all dosage matches, drop form words token-wise,
re-join and collapse whitespace. -/
def normalizeDrugName (name : Str) : Str × Str × Str :=
  if name = [] then ([], [], [])
  else
    let normalized0 := pyStrip (pyUpper name)
    let step : Str × Str × Str :=
      match dosageSearch normalized0 with
      | some (v, u) => (dosageSub normalized0, commaToDot v, pyUpper u)
      | none => (normalized0, [], [])
    let words := pySplitWS step.1
    let filtered := words.filter fun w => !FORM_WORDS.contains w
    let n3 := pyStrip (pyJoin " ".toList filtered)
    (collapseWS n3, step.2.1, step.2.2)

/-! ## difflib.SequenceMatcher (used by `_fuzzy_score`), with no junk
predicate (`SequenceMatcher(None, a, b)`). -/

/-- Indexing into a string, as `s[i]` (all accesses below are in range). -/
def strGet (s : Str) (i : Nat) : Char := s.getD i (Char.ofNat 0)

/-- Indices of the occurrences of `c` in `b` (the `b2j` chains). -/
def indicesOf (b : Str) (c : Char) : List Nat :=
  (List.range b.length).filter fun j => strGet b j = c

/-- `b2j` with the autojunk rule: when `len(b) >= 200`, characters occurring
more than `len(b) // 100 + 1` times are dropped from the index. -/
def b2j (b : Str) (c : Char) : List Nat :=
  let idx := indicesOf b c
  if 200 ≤ b.length ∧ b.length / 100 + 1 < idx.length then [] else idx

/-- The inner `for j in b2j[a[i]]` loop of `find_longest_match`: `j < blo`
continues, `j >= bhi` breaks, otherwise the run length ending at `(i, j)` is
the previous row's value at `j-1` plus one, updating the best block when
strictly longer.  State: (new row association list, (besti, bestj,
bestsize)). -/
def innerLoop (j2len : List (Nat × Nat)) (i blo bhi : Nat) :
    List Nat → List (Nat × Nat) → Nat × Nat × Nat →
      List (Nat × Nat) × (Nat × Nat × Nat)
  | [], acc, best => (acc, best)
  | j :: js, acc, best =>
    if j < blo then innerLoop j2len i blo bhi js acc best
    else if bhi ≤ j then (acc, best)
    else
      let prev := if j = 0 then 0 else ((j2len.lookup (j - 1)).getD 0)
      let k := prev + 1
      let best2 := if best.2.2 < k then ((i + 1) - k, (j + 1) - k, k) else best
      innerLoop j2len i blo bhi js (acc ++ [(j, k)]) best2

/-- The main double loop of `find_longest_match`. -/
def flmMain (a b : Str) (alo ahi blo bhi : Nat) : Nat × Nat × Nat :=
  ((List.range' alo (ahi - alo)).foldl
    (fun st i => innerLoop st.1 i blo bhi (b2j b (strGet a i)) [] st.2)
    ([], (alo, blo, 0))).2

/-- No characters are junk for `SequenceMatcher(None, a, b)`. -/
def noJunk (_ : Char) : Bool := false

/-- Backward extension while-loop of `find_longest_match` (`junkFlag` false
models the `not isbjunk` loop, true the `isbjunk` one); fuel bounds the
iterations by the initial `besti`, which decreases by one per step. -/
def extBack (a b : Str) (alo blo : Nat) (bjunk : Char → Bool) (junkFlag : Bool) :
    Nat → Nat × Nat × Nat → Nat × Nat × Nat
  | 0, best => best
  | fuel + 1, (bi, bj, k) =>
    if alo < bi ∧ blo < bj ∧ bjunk (strGet b (bj - 1)) = junkFlag ∧
        strGet a (bi - 1) = strGet b (bj - 1) then
      extBack a b alo blo bjunk junkFlag fuel (bi - 1, bj - 1, k + 1)
    else (bi, bj, k)

/-- Forward extension while-loop of `find_longest_match`; fuel bounds the
iterations by `ahi - (besti + bestsize)`. -/
def extFwd (a b : Str) (ahi bhi : Nat) (bjunk : Char → Bool) (junkFlag : Bool) :
    Nat → Nat × Nat × Nat → Nat × Nat × Nat
  | 0, best => best
  | fuel + 1, (bi, bj, k) =>
    if bi + k < ahi ∧ bj + k < bhi ∧ bjunk (strGet b (bj + k)) = junkFlag ∧
        strGet a (bi + k) = strGet b (bj + k) then
      extFwd a b ahi bhi bjunk junkFlag fuel (bi, bj, k + 1)
    else (bi, bj, k)

/-- `find_longest_match(alo, ahi, blo, bhi)`: main loop then the four
extension loops (non-junk backward/forward, junk backward/forward; with no
junk the last two never fire). -/
def findLongestMatch (a b : Str) (alo ahi blo bhi : Nat) : Nat × Nat × Nat :=
  let m0 := flmMain a b alo ahi blo bhi
  let m1 := extBack a b alo blo noJunk false m0.1 m0
  let m2 := extFwd a b ahi bhi noJunk false (ahi - (m1.1 + m1.2.2)) m1
  let m3 := extBack a b alo blo noJunk true m2.1 m2
  let m4 := extFwd a b ahi bhi noJunk true (ahi - (m3.1 + m3.2.2)) m3
  m4

/-- Total size of matching blocks (`sum(size for _, _, size in
get_matching_blocks())`), by the recursive region splitting of
`get_matching_blocks`; fuel bounds the recursion depth (each level strictly
shrinks the region). -/
def matchSumF (a b : Str) : Nat → Nat → Nat → Nat → Nat → Nat
  | 0, _, _, _, _ => 0
  | fuel + 1, alo, ahi, blo, bhi =>
    let m := findLongestMatch a b alo ahi blo bhi
    if m.2.2 = 0 then 0
    else
      m.2.2 +
        (if alo < m.1 ∧ blo < m.2.1 then matchSumF a b fuel alo m.1 blo m.2.1 else 0) +
        (if m.1 + m.2.2 < ahi ∧ m.2.1 + m.2.2 < bhi then
          matchSumF a b fuel (m.1 + m.2.2) ahi (m.2.1 + m.2.2) bhi else 0)

/-- Total matched characters between `a` and `b`. -/
def matchSum (a b : Str) : Nat :=
  matchSumF a b (a.length + b.length + 1) 0 a.length 0 b.length

/-- `SequenceMatcher.ratio()`: `2*M / T`, or 1.0 when both strings are
empty. -/
def smRatio (a b : Str) : ℚ :=
  if a.length + b.length = 0 then 1
  else 2 * (matchSum a b : ℚ) / ((a.length + b.length : Nat) : ℚ)

/-! ## src/api/drug_matcher.py: scoring and matching -/

/-- `_fuzzy_score` (src/api/drug_matcher.py lines 113-141). -/
def fuzzyScore (query candidate : Str) : ℚ :=
  if query = [] ∨ candidate = [] then 0
  else
    let q := pyUpper query
    let c := pyUpper candidate
    if q = c then 1
    else if pyContains c q then 9/10 + ((q.length : ℚ) / (c.length : ℚ)) * (1/10)
    else smRatio q c

/-- `_calculate_match_score` (src/api/drug_matcher.py lines 144-188). -/
def calculateMatchScore (query : Str) (record : CUMRecord)
    (dosage_value dosage_unit : Str) : ℚ :=
  let product_score := fuzzyScore query record.producto
  let ingredient_score := fuzzyScore query record.principioactivo
  let base_score := max product_score ingredient_score
  let dosage_bonus : ℚ :=
    if dosage_value ≠ [] ∧ dosage_unit ≠ [] ∧ record.concentracion_valor ≠ [] ∧
        record.unidadmedida ≠ [] ∧
        dosage_value = commaToDot record.concentracion_valor ∧
        dosage_unit = pyUpper record.unidadmedida then 1/10 else 0
  let status_bonus : ℚ :=
    if pyUpper record.estadoregistro = "VIGENTE".toList then 1/20 else 0
  min 1 (base_score + dosage_bonus + status_bonus)

/-- The values stored in the `debug_info` dict. -/
inductive DebugVal
  | s (v : Str)
  | n (v : Nat)
deriving DecidableEq

/-- One external registry query issued by `match_drug_to_cum` (trace of the
calls to `search_by_product_name` / `search_by_active_ingredient`). -/
inductive QueryCall
  | product (query : Str) (limit : Nat)
  | ingredient (query : Str) (limit : Nat)
deriving DecidableEq

/-- `DrugMatchResult` (src/api/drug_matcher.py lines 51-72); `debug_info` is
the dict as an insertion-ordered association list (its keys are never
re-assigned). -/
structure DrugMatchResult where
  record : Option CUMRecord
  match_type : Str
  confidence : ℚ
  other_matches : List CUMRecord
  query_normalized : Str
  debug_info : List (Str × DebugVal)
deriving DecidableEq

/-- `MIN_CONFIDENCE`. -/
def MIN_CONFIDENCE : ℚ := 1/2

/-- Strategy 1 candidates (lines 261-265): each product-search record scored,
labelled `exact` when the score reaches 0.8 and `fuzzy` otherwise. -/
def productCandidates (normalized dosage_value dosage_unit : Str)
    (results : List CUMRecord) : List (CUMRecord × ℚ × Str) :=
  results.map fun record =>
    let score := calculateMatchScore normalized record dosage_value dosage_unit
    (record, score, if 4/5 ≤ score then "exact".toList else "fuzzy".toList)

/-- Strategy 2 (lines 277-287): ingredient-search records are appended,
skipping any whose `expedientecum` is already present (note the check runs
against the growing list, so ingredient hits also dedup each other); an exact
ingredient match is labelled `active_ingredient` with score floored at 0.85,
anything else `fuzzy`. -/
def addIngredientCandidates (normalized dosage_value dosage_unit : Str)
    (results : List CUMRecord) (init : List (CUMRecord × ℚ × Str)) :
    List (CUMRecord × ℚ × Str) :=
  results.foldl
    (fun acc record =>
      if acc.any fun c => c.1.expedientecum = record.expedientecum then acc
      else
        let score := calculateMatchScore normalized record dosage_value dosage_unit
        if pyUpper record.principioactivo = normalized then
          acc ++ [(record, max score (17/20), "active_ingredient".toList)]
        else acc ++ [(record, score, "fuzzy".toList)])
    init

/-- Stable insertion for descending sort by score: a new element goes before
the first strictly smaller score, after all equal ones (Python's stable
`list.sort(key=score, reverse=True)`). -/
def insertDesc (x : CUMRecord × ℚ × Str) :
    List (CUMRecord × ℚ × Str) → List (CUMRecord × ℚ × Str)
  | [] => [x]
  | y :: ys => if y.2.1 < x.2.1 then x :: y :: ys else y :: insertDesc x ys

/-- `all_candidates.sort(key=lambda x: x[1], reverse=True)`. -/
def sortByScoreDesc (l : List (CUMRecord × ℚ × Str)) :
    List (CUMRecord × ℚ × Str) :=
  l.foldl (fun acc x => insertDesc x acc) []

/-- The selection stage of `match_drug_to_cum` (lines 293-339), applied to
the sorted candidate list. -/
def selectResult (normalized : Str) (debug : List (Str × DebugVal))
    (log : List QueryCall) (sortedC : List (CUMRecord × ℚ × Str)) :
    DrugMatchResult × List QueryCall :=
  match sortedC with
  | [] => (⟨none, "none".toList, 0, [], normalized, debug⟩, log)
  | best :: restC =>
    if best.2.1 < MIN_CONFIDENCE then
      (⟨none, "none".toList, best.2.1, ((best :: restC).take 5).map (·.1),
        normalized, debug⟩, log)
    else
      (⟨some best.1, best.2.2, best.2.1, (restC.take 5).map (·.1),
        normalized, debug⟩, log)

/-- `match_drug_to_cum` (src/api/drug_matcher.py lines 191-339).  The two
registry collaborators are oracles mapping (query, limit) to either a result
list or a raised exception; the second component of the result is the trace
of external queries issued. -/
def matchDrugToCum
    (productSearch ingredientSearch : Str → Nat → Except Str (List CUMRecord))
    (medication_name : Str) (dosage : Str) (limit : Nat) :
    DrugMatchResult × List QueryCall :=
  if pyStrip medication_name = [] then
    (⟨none, "none".toList, 0, [], [],
      [("error".toList, DebugVal.s "empty_input".toList)]⟩, [])
  else
    let norm := normalizeDrugName medication_name
    let normalized := norm.1
    let dos : Str × Str :=
      if dosage ≠ [] ∧ norm.2.1 = [] then
        ((normalizeDrugName dosage).2.1, (normalizeDrugName dosage).2.2)
      else (norm.2.1, norm.2.2)
    let debug0 : List (Str × DebugVal) :=
      [("query_original".toList, DebugVal.s medication_name),
       ("query_normalized".toList, DebugVal.s normalized),
       ("dosage_extracted".toList, DebugVal.s (dos.1 ++ dos.2))]
    if normalized = [] then
      (⟨none, "none".toList, 0, [], normalized,
        debug0 ++ [("error".toList, DebugVal.s "empty_normalized".toList)]⟩, [])
    else
      let pres : List (CUMRecord × ℚ × Str) × List (Str × DebugVal) :=
        match productSearch normalized limit with
        | .ok results =>
          (productCandidates normalized dos.1 dos.2 results,
            debug0 ++ [("product_search_count".toList, DebugVal.n results.length)])
        | .error e => ([], debug0 ++ [("product_search_error".toList, DebugVal.s e)])
      let ing : List (CUMRecord × ℚ × Str) × List (Str × DebugVal) :=
        match ingredientSearch normalized limit with
        | .ok results =>
          (addIngredientCandidates normalized dos.1 dos.2 results pres.1,
            pres.2 ++ [("ingredient_search_count".toList, DebugVal.n results.length)])
        | .error e =>
          (pres.1, pres.2 ++ [("ingredient_search_error".toList, DebugVal.s e)])
      let sortedC := sortByScoreDesc ing.1
      let debug := ing.2 ++ [("total_candidates".toList, DebugVal.n sortedC.length)]
      selectResult normalized debug
        [QueryCall.product normalized limit, QueryCall.ingredient normalized limit]
        sortedC


/-- C2: the two guard cases of `match_drug_to_cum`: empty/whitespace-only
input returns a `none` result marked `empty_input`, and non-empty input whose
normalized form is empty after dosage extraction and form-word stripping
returns a `none` result marked `empty_normalized`; in both cases zero
external registry queries are issued. -/
theorem C2_match_guard_cases
    (productSearch ingredientSearch : Str → Nat → Except Str (List CUMRecord))
    (name dosage : Str) (limit : Nat) :
    (pyStrip name = [] →
      matchDrugToCum productSearch ingredientSearch name dosage limit =
        (⟨none, "none".toList, 0, [], [],
          [("error".toList, DebugVal.s "empty_input".toList)]⟩, [])) ∧
    (pyStrip name ≠ [] → (normalizeDrugName name).1 = [] →
      (matchDrugToCum productSearch ingredientSearch name dosage limit).1.record =
        none ∧
      (matchDrugToCum productSearch ingredientSearch name dosage limit).1.match_type =
        "none".toList ∧
      (matchDrugToCum productSearch ingredientSearch name dosage
          limit).1.debug_info.lookup "error".toList =
        some (DebugVal.s "empty_normalized".toList) ∧
      (matchDrugToCum productSearch ingredientSearch name dosage limit).2 = []) := by
  constructor
  · intro h
    simp only [matchDrugToCum, if_pos h]
  · intro h1 h2
    refine ⟨?_, ?_, ?_, ?_⟩ <;>
      simp [matchDrugToCum, if_neg h1, h2, List.lookup]

/-- Oracle that would answer every query (never consulted in the witness). -/
def c2Search (_query : Str) (_limit : Nat) : Except Str (List CUMRecord) :=
  Except.ok []

/-- C2 witness: the empty input hits the `empty_input` guard and `"500MG"` —
non-empty, but normalizing to the empty string — hits the `empty_normalized`
guard, both issuing zero queries. -/
theorem C2_match_guard_cases_witness :
    (matchDrugToCum c2Search c2Search [] [] 20 =
      (⟨none, "none".toList, 0, [], [],
        [("error".toList, DebugVal.s "empty_input".toList)]⟩, [])) ∧
    ((matchDrugToCum c2Search c2Search "500MG".toList [] 20).1.record = none ∧
      (matchDrugToCum c2Search c2Search "500MG".toList [] 20).1.match_type =
        "none".toList ∧
      (matchDrugToCum c2Search c2Search "500MG".toList [] 20).1.debug_info.lookup
        "error".toList = some (DebugVal.s "empty_normalized".toList) ∧
      (matchDrugToCum c2Search c2Search "500MG".toList [] 20).2 = []) :=
  ⟨(C2_match_guard_cases c2Search c2Search [] [] 20).1 (by decide),
    (C2_match_guard_cases c2Search c2Search "500MG".toList [] 20).2
      (by decide) (by decide)⟩

/-- The dosage pair `match_drug_to_cum` ends up using: the one parsed from
the name, or the one parsed from the separate `dosage` argument when the name
carried none (lines 229-233). -/
def effectiveDosage (name dosage : Str) : Str × Str :=
  if dosage ≠ [] ∧ (normalizeDrugName name).2.1 = [] then
    ((normalizeDrugName dosage).2.1, (normalizeDrugName dosage).2.2)
  else ((normalizeDrugName name).2.1, (normalizeDrugName name).2.2)

/-- The deduplicated candidate list `match_drug_to_cum` builds from the two
search strategies (lines 253-291), as a function of the oracle outcomes. -/
def gatherCandidates
    (productSearch ingredientSearch : Str → Nat → Except Str (List CUMRecord))
    (normalized dosage_value dosage_unit : Str) (limit : Nat) :
    List (CUMRecord × ℚ × Str) :=
  let base : List (CUMRecord × ℚ × Str) :=
    match productSearch normalized limit with
    | .ok results => productCandidates normalized dosage_value dosage_unit results
    | .error _ => []
  match ingredientSearch normalized limit with
  | .ok results => addIngredientCandidates normalized dosage_value dosage_unit results base
  | .error _ => base

lemma insertDesc_perm (x : CUMRecord × ℚ × Str) (l : List (CUMRecord × ℚ × Str)) :
    (insertDesc x l).Perm (x :: l) := by
  induction l with
  | nil => exact List.Perm.refl _
  | cons y ys ih =>
    simp only [insertDesc]
    split
    · exact List.Perm.refl _
    · exact ((ih.cons y).trans (List.Perm.swap x y ys))

lemma insertDesc_sorted (x : CUMRecord × ℚ × Str) (l : List (CUMRecord × ℚ × Str))
    (h : l.Pairwise fun a b => b.2.1 ≤ a.2.1) :
    (insertDesc x l).Pairwise fun a b => b.2.1 ≤ a.2.1 := by
  induction l with
  | nil => simp [insertDesc]
  | cons y ys ih =>
    simp only [insertDesc]
    rcases List.pairwise_cons.mp h with ⟨hy, hys⟩
    split
    next hlt =>
      refine List.pairwise_cons.mpr ⟨?_, h⟩
      intro z hz
      rcases List.mem_cons.mp hz with rfl | hz
      · exact le_of_lt hlt
      · exact le_trans (hy z hz) (le_of_lt hlt)
    next hnlt =>
      refine List.pairwise_cons.mpr ⟨?_, ih hys⟩
      intro z hz
      rcases List.mem_cons.mp ((insertDesc_perm x ys).mem_iff.mp hz) with rfl | hz
      · exact le_of_not_lt hnlt
      · exact hy z hz

lemma sortByScoreDesc_perm_aux (l acc : List (CUMRecord × ℚ × Str)) :
    (l.foldl (fun acc x => insertDesc x acc) acc).Perm (acc ++ l) := by
  induction l generalizing acc with
  | nil => simp
  | cons x t ih =>
    simp only [List.foldl_cons]
    refine (ih (insertDesc x acc)).trans ?_
    refine ((insertDesc_perm x acc).append_right t).trans ?_
    simpa using (@List.perm_middle _ x acc t).symm

lemma sortByScoreDesc_perm (l : List (CUMRecord × ℚ × Str)) :
    (sortByScoreDesc l).Perm l := by
  simpa using sortByScoreDesc_perm_aux l []

lemma sortByScoreDesc_sorted (l : List (CUMRecord × ℚ × Str)) :
    (sortByScoreDesc l).Pairwise fun a b => b.2.1 ≤ a.2.1 := by
  have haux : ∀ acc : List (CUMRecord × ℚ × Str),
      (acc.Pairwise fun a b => b.2.1 ≤ a.2.1) →
      ((l.foldl (fun acc x => insertDesc x acc) acc).Pairwise
        fun a b => b.2.1 ≤ a.2.1) := by
    induction l with
    | nil => intro acc h; simpa using h
    | cons x t ih =>
      intro acc h
      simp only [List.foldl_cons]
      exact ih _ (insertDesc_sorted x acc h)
  exact haux [] (by simp)

lemma productCandidates_type_ne_none (normalized dv du : Str)
    (results : List CUMRecord) :
    ∀ c ∈ productCandidates normalized dv du results, c.2.2 ≠ "none".toList := by
  intro c hc
  obtain ⟨record, _, hrec⟩ := List.mem_map.mp hc
  rw [← hrec]
  dsimp only
  split <;> decide

lemma addIngredientCandidates_type_ne_none (normalized dv du : Str)
    (results : List CUMRecord) (init : List (CUMRecord × ℚ × Str))
    (hinit : ∀ c ∈ init, c.2.2 ≠ "none".toList) :
    ∀ c ∈ addIngredientCandidates normalized dv du results init,
      c.2.2 ≠ "none".toList := by
  induction results generalizing init with
  | nil => exact hinit
  | cons record rest ih =>
    simp only [addIngredientCandidates, List.foldl_cons]
    split
    · exact ih init hinit
    · split
      · refine ih _ ?_
        intro c hc
        rcases List.mem_append.mp hc with hc | hc
        · exact hinit c hc
        · rcases List.mem_singleton.mp hc with rfl
          exact (by decide : ("active_ingredient".toList : Str) ≠ "none".toList)
      · refine ih _ ?_
        intro c hc
        rcases List.mem_append.mp hc with hc | hc
        · exact hinit c hc
        · rcases List.mem_singleton.mp hc with rfl
          exact (by decide : ("fuzzy".toList : Str) ≠ "none".toList)

lemma gatherCandidates_type_ne_none
    (productSearch ingredientSearch : Str → Nat → Except Str (List CUMRecord))
    (normalized dv du : Str) (limit : Nat) :
    ∀ c ∈ gatherCandidates productSearch ingredientSearch normalized dv du limit,
      c.2.2 ≠ "none".toList := by
  unfold gatherCandidates
  cases hp : productSearch normalized limit with
  | ok rp =>
    cases hi : ingredientSearch normalized limit with
    | ok ri =>
      exact addIngredientCandidates_type_ne_none _ _ _ _ _
        (productCandidates_type_ne_none _ _ _ _)
    | error e => exact productCandidates_type_ne_none _ _ _ _
  | error e =>
    cases hi : ingredientSearch normalized limit with
    | ok ri =>
      exact addIngredientCandidates_type_ne_none _ _ _ _ _ (by intro c hc; cases hc)
    | error e2 => intro c hc; cases hc

lemma matchDrugToCum_main
    (productSearch ingredientSearch : Str → Nat → Except Str (List CUMRecord))
    (name dosage : Str) (limit : Nat)
    (h1 : pyStrip name ≠ []) (h2 : (normalizeDrugName name).1 ≠ []) :
    ∃ debug, matchDrugToCum productSearch ingredientSearch name dosage limit =
      selectResult (normalizeDrugName name).1 debug
        [QueryCall.product (normalizeDrugName name).1 limit,
         QueryCall.ingredient (normalizeDrugName name).1 limit]
        (sortByScoreDesc (gatherCandidates productSearch ingredientSearch
          (normalizeDrugName name).1 (effectiveDosage name dosage).1
          (effectiveDosage name dosage).2 limit)) := by
  cases hp : productSearch (normalizeDrugName name).1 limit with
  | ok rp =>
    cases hi : ingredientSearch (normalizeDrugName name).1 limit with
    | ok ri =>
      refine ⟨[("query_original".toList, DebugVal.s name),
        ("query_normalized".toList, DebugVal.s (normalizeDrugName name).1),
        ("dosage_extracted".toList, DebugVal.s ((effectiveDosage name dosage).1 ++
          (effectiveDosage name dosage).2))] ++
        [("product_search_count".toList, DebugVal.n rp.length)] ++
        [("ingredient_search_count".toList, DebugVal.n ri.length)] ++
        [("total_candidates".toList, DebugVal.n (sortByScoreDesc
          (gatherCandidates productSearch ingredientSearch
            (normalizeDrugName name).1 (effectiveDosage name dosage).1
            (effectiveDosage name dosage).2 limit)).length)], ?_⟩
      simp only [matchDrugToCum, if_neg h1, if_neg h2, gatherCandidates,
        effectiveDosage, hp, hi]
    | error e =>
      refine ⟨[("query_original".toList, DebugVal.s name),
        ("query_normalized".toList, DebugVal.s (normalizeDrugName name).1),
        ("dosage_extracted".toList, DebugVal.s ((effectiveDosage name dosage).1 ++
          (effectiveDosage name dosage).2))] ++
        [("product_search_count".toList, DebugVal.n rp.length)] ++
        [("ingredient_search_error".toList, DebugVal.s e)] ++
        [("total_candidates".toList, DebugVal.n (sortByScoreDesc
          (gatherCandidates productSearch ingredientSearch
            (normalizeDrugName name).1 (effectiveDosage name dosage).1
            (effectiveDosage name dosage).2 limit)).length)], ?_⟩
      simp only [matchDrugToCum, if_neg h1, if_neg h2, gatherCandidates,
        effectiveDosage, hp, hi]
  | error e =>
    cases hi : ingredientSearch (normalizeDrugName name).1 limit with
    | ok ri =>
      refine ⟨[("query_original".toList, DebugVal.s name),
        ("query_normalized".toList, DebugVal.s (normalizeDrugName name).1),
        ("dosage_extracted".toList, DebugVal.s ((effectiveDosage name dosage).1 ++
          (effectiveDosage name dosage).2))] ++
        [("product_search_error".toList, DebugVal.s e)] ++
        [("ingredient_search_count".toList, DebugVal.n ri.length)] ++
        [("total_candidates".toList, DebugVal.n (sortByScoreDesc
          (gatherCandidates productSearch ingredientSearch
            (normalizeDrugName name).1 (effectiveDosage name dosage).1
            (effectiveDosage name dosage).2 limit)).length)], ?_⟩
      simp only [matchDrugToCum, if_neg h1, if_neg h2, gatherCandidates,
        effectiveDosage, hp, hi]
    | error e2 =>
      refine ⟨[("query_original".toList, DebugVal.s name),
        ("query_normalized".toList, DebugVal.s (normalizeDrugName name).1),
        ("dosage_extracted".toList, DebugVal.s ((effectiveDosage name dosage).1 ++
          (effectiveDosage name dosage).2))] ++
        [("product_search_error".toList, DebugVal.s e)] ++
        [("ingredient_search_error".toList, DebugVal.s e2)] ++
        [("total_candidates".toList, DebugVal.n (sortByScoreDesc
          (gatherCandidates productSearch ingredientSearch
            (normalizeDrugName name).1 (effectiveDosage name dosage).1
            (effectiveDosage name dosage).2 limit)).length)], ?_⟩
      simp only [matchDrugToCum, if_neg h1, if_neg h2, gatherCandidates,
        effectiveDosage, hp, hi]

/-- C4: the selection stage of `match_drug_to_cum`: deduplicated candidates
are sorted by score descending (stable); an empty candidate list yields a
`none` result; a best score below the 0.5 threshold yields a `none` result
that still carries the top-5 candidates and the actual best score as
confidence; otherwise the top candidate becomes the record with its type and
score, the next five candidates becoming `other_matches`.  In every result of
`match_drug_to_cum`, the record is `None` iff the match type is `"none"`. -/
theorem C4_selection_stage
    (productSearch ingredientSearch : Str → Nat → Except Str (List CUMRecord))
    (name dosage : Str) (limit : Nat) :
    (∀ l : List (CUMRecord × ℚ × Str),
      ((sortByScoreDesc l).Pairwise fun a b => b.2.1 ≤ a.2.1) ∧
      (sortByScoreDesc l).Perm l) ∧
    (∀ (normalized : Str) (debug : List (Str × DebugVal)) (log : List QueryCall),
      selectResult normalized debug log [] =
        (⟨none, "none".toList, 0, [], normalized, debug⟩, log)) ∧
    (∀ (normalized : Str) (debug : List (Str × DebugVal)) (log : List QueryCall)
        (best : CUMRecord × ℚ × Str) (restC : List (CUMRecord × ℚ × Str)),
      best.2.1 < 1/2 →
      selectResult normalized debug log (best :: restC) =
        (⟨none, "none".toList, best.2.1, ((best :: restC).take 5).map (·.1),
          normalized, debug⟩, log)) ∧
    (∀ (normalized : Str) (debug : List (Str × DebugVal)) (log : List QueryCall)
        (best : CUMRecord × ℚ × Str) (restC : List (CUMRecord × ℚ × Str)),
      ¬ best.2.1 < 1/2 →
      selectResult normalized debug log (best :: restC) =
        (⟨some best.1, best.2.2, best.2.1, (restC.take 5).map (·.1),
          normalized, debug⟩, log)) ∧
    (pyStrip name ≠ [] → (normalizeDrugName name).1 ≠ [] →
      ∃ debug, matchDrugToCum productSearch ingredientSearch name dosage limit =
        selectResult (normalizeDrugName name).1 debug
          [QueryCall.product (normalizeDrugName name).1 limit,
           QueryCall.ingredient (normalizeDrugName name).1 limit]
          (sortByScoreDesc (gatherCandidates productSearch ingredientSearch
            (normalizeDrugName name).1 (effectiveDosage name dosage).1
            (effectiveDosage name dosage).2 limit))) ∧
    ((matchDrugToCum productSearch ingredientSearch name dosage limit).1.record =
        none ↔
      (matchDrugToCum productSearch ingredientSearch name dosage
        limit).1.match_type = "none".toList) := by
  refine ⟨fun l => ⟨sortByScoreDesc_sorted l, sortByScoreDesc_perm l⟩,
    fun _ _ _ => rfl, ?_, ?_, ?_, ?_⟩
  · intro normalized debug log best restC h
    simp only [selectResult, MIN_CONFIDENCE, if_pos h]
  · intro normalized debug log best restC h
    simp only [selectResult, MIN_CONFIDENCE, if_neg h]
  · exact matchDrugToCum_main productSearch ingredientSearch name dosage limit
  · by_cases h1 : pyStrip name = []
    · simp [matchDrugToCum, if_pos h1]
    · by_cases h2 : (normalizeDrugName name).1 = []
      · simp [matchDrugToCum, if_neg h1, h2]
      · obtain ⟨debug, hrw⟩ :=
          matchDrugToCum_main productSearch ingredientSearch name dosage limit h1 h2
        rw [hrw]
        cases hsorted : sortByScoreDesc (gatherCandidates productSearch
            ingredientSearch (normalizeDrugName name).1
            (effectiveDosage name dosage).1 (effectiveDosage name dosage).2 limit) with
        | nil => simp [selectResult]
        | cons best restC =>
          by_cases hbest : best.2.1 < MIN_CONFIDENCE
          · simp only [selectResult]
            rw [if_pos hbest]
            simp
          · have hne : best.2.2 ≠ "none".toList := by
              refine gatherCandidates_type_ne_none productSearch ingredientSearch
                (normalizeDrugName name).1 (effectiveDosage name dosage).1
                (effectiveDosage name dosage).2 limit best ?_
              have : best ∈ sortByScoreDesc (gatherCandidates productSearch
                  ingredientSearch (normalizeDrugName name).1
                  (effectiveDosage name dosage).1 (effectiveDosage name dosage).2
                  limit) := by
                rw [hsorted]
                exact List.mem_cons_self _ _
              exact (sortByScoreDesc_perm _).mem_iff.mp this
            simp only [selectResult]
            rw [if_neg hbest]
            constructor
            · intro hcontra
              exact absurd hcontra (by simp)
            · intro hcontra
              exact absurd hcontra hne

/-- Registry record used by the matcher witnesses. -/
def c4Record : CUMRecord :=
  ⟨"20001234".toList, "METFORMINA MK".toList, "METFORMINA".toList,
    "850".toList, "mg".toList, "TABLETA".toList, "MK".toList,
    "INVIMA123".toList, "Vigente".toList, "30".toList, "CAJA X 30".toList⟩

/-- C4 witness: the accepting selection at a top score of 1.0, and the main
path routed through the sorted gathered candidates for a concrete oracle. -/
theorem C4_selection_stage_witness :
    (selectResult "METFORMINA".toList [] [] [(c4Record, 1, "exact".toList)] =
      (⟨some c4Record, "exact".toList, 1, [], "METFORMINA".toList, []⟩, [])) ∧
    (∃ debug, matchDrugToCum (fun _ _ => Except.ok [c4Record])
        (fun _ _ => Except.ok []) "METFORMINA".toList [] 20 =
      selectResult (normalizeDrugName "METFORMINA".toList).1 debug
        [QueryCall.product (normalizeDrugName "METFORMINA".toList).1 20,
         QueryCall.ingredient (normalizeDrugName "METFORMINA".toList).1 20]
        (sortByScoreDesc (gatherCandidates (fun _ _ => Except.ok [c4Record])
          (fun _ _ => Except.ok []) (normalizeDrugName "METFORMINA".toList).1
          (effectiveDosage "METFORMINA".toList []).1
          (effectiveDosage "METFORMINA".toList []).2 20))) :=
  ⟨(C4_selection_stage (fun _ _ => Except.ok [c4Record]) (fun _ _ => Except.ok [])
      "METFORMINA".toList [] 20).2.2.2.1 "METFORMINA".toList [] []
      (c4Record, 1, "exact".toList) [] (by norm_num),
    (C4_selection_stage (fun _ _ => Except.ok [c4Record]) (fun _ _ => Except.ok [])
      "METFORMINA".toList [] 20).2.2.2.2.1 (by decide) (by decide)⟩

/-! ## Bounds of `find_longest_match`, giving `ratio` ∈ [0,1] -/

/-- The best block `(besti, bestj, bestsize)` stays inside the region. -/
def BestP (alo ahi blo bhi : Nat) (m : Nat × Nat × Nat) : Prop :=
  alo ≤ m.1 ∧ blo ≤ m.2.1 ∧ m.1 + m.2.2 ≤ ahi ∧ m.2.1 + m.2.2 ≤ bhi

lemma lookup_mem {l : List (Nat × Nat)} {k v : Nat} (h : l.lookup k = some v) :
    (k, v) ∈ l := by
  induction l with
  | nil => cases h
  | cons p t ih =>
    obtain ⟨pk, pv⟩ := p
    simp only [List.lookup] at h
    split at h
    next heq =>
      obtain rfl : k = pk := eq_of_beq heq
      obtain rfl : pv = v := by injection h
      exact List.mem_cons_self _ _
    next => exact List.mem_cons_of_mem _ (ih h)

lemma innerLoop_inv (j2len : List (Nat × Nat)) (alo ahi blo bhi i : Nat)
    (hi1 : alo ≤ i) (hi2 : i < ahi)
    (hj2 : ∀ p ∈ j2len, p.2 + blo ≤ p.1 + 1 ∧ p.2 + alo ≤ i) :
    ∀ (js : List Nat) (acc : List (Nat × Nat)) (best : Nat × Nat × Nat),
      (∀ p ∈ acc, p.2 + blo ≤ p.1 + 1 ∧ p.2 + alo ≤ i + 1) →
      BestP alo ahi blo bhi best →
      (∀ p ∈ (innerLoop j2len i blo bhi js acc best).1,
        p.2 + blo ≤ p.1 + 1 ∧ p.2 + alo ≤ i + 1) ∧
      BestP alo ahi blo bhi (innerLoop j2len i blo bhi js acc best).2 := by
  intro js
  induction js with
  | nil => intro acc best hacc hbest; exact ⟨hacc, hbest⟩
  | cons j js ih =>
    intro acc best hacc hbest
    simp only [innerLoop]
    by_cases hjlo : j < blo
    · rw [if_pos hjlo]
      exact ih acc best hacc hbest
    · rw [if_neg hjlo]
      by_cases hjhi : bhi ≤ j
      · rw [if_pos hjhi]
        exact ⟨hacc, hbest⟩
      · rw [if_neg hjhi]
        have hblo : blo ≤ j := le_of_not_lt hjlo
        have hjbhi : j < bhi := lt_of_not_le hjhi
        have hprev : (if j = 0 then 0 else ((j2len.lookup (j - 1)).getD 0)) + blo ≤ j ∧
            (if j = 0 then 0 else ((j2len.lookup (j - 1)).getD 0)) + alo ≤ i := by
          by_cases hj0 : j = 0
          · subst hj0
            rw [if_pos rfl]
            omega
          · rw [if_neg hj0]
            cases hlk : j2len.lookup (j - 1) with
            | none => simp only [Option.getD_none]; omega
            | some v =>
              have hv := hj2 _ (lookup_mem hlk)
              simp only [Option.getD_some]
              simp only at hv
              omega
        refine ih _ _ ?_ ?_
        · intro p hp
          rcases List.mem_append.mp hp with hp | hp
          · exact hacc p hp
          · rcases List.mem_singleton.mp hp with rfl
            simp only
            omega
        · by_cases hbk : best.2.2 < (if j = 0 then 0
              else ((j2len.lookup (j - 1)).getD 0)) + 1
          · rw [if_pos hbk]
            obtain ⟨hp1, hp2⟩ := hprev
            refine ⟨?_, ?_, ?_, ?_⟩ <;> simp only <;> omega
          · rw [if_neg hbk]
            exact hbest

lemma flmFold_inv (a b : Str) (alo ahi blo bhi : Nat) :
    ∀ (n s : Nat) (st : List (Nat × Nat) × (Nat × Nat × Nat)),
      alo ≤ s → s + n ≤ ahi →
      (∀ p ∈ st.1, p.2 + blo ≤ p.1 + 1 ∧ p.2 + alo ≤ s) →
      BestP alo ahi blo bhi st.2 →
      (∀ p ∈ ((List.range' s n).foldl
          (fun st i => innerLoop st.1 i blo bhi (b2j b (strGet a i)) [] st.2) st).1,
        p.2 + blo ≤ p.1 + 1 ∧ p.2 + alo ≤ s + n) ∧
      BestP alo ahi blo bhi ((List.range' s n).foldl
        (fun st i => innerLoop st.1 i blo bhi (b2j b (strGet a i)) [] st.2) st).2 := by
  intro n
  induction n with
  | zero =>
    intro s st hs hsn hrow hbest
    simp only [List.range', List.foldl_nil]
    exact ⟨fun p hp => ⟨(hrow p hp).1, le_trans (hrow p hp).2 (by omega)⟩, hbest⟩
  | succ n ih =>
    intro s st hs hsn hrow hbest
    rw [List.range'_succ]
    simp only [List.foldl_cons]
    have hstep := innerLoop_inv st.1 alo ahi blo bhi s hs (by omega)
      hrow (b2j b (strGet a s)) [] st.2 (by intro p hp; cases hp) hbest
    have := ih (s + 1)
      (innerLoop st.1 s blo bhi (b2j b (strGet a s)) [] st.2)
      (by omega) (by omega) hstep.1 hstep.2
    refine ⟨fun p hp => ⟨(this.1 p hp).1, le_trans (this.1 p hp).2 (by omega)⟩, this.2⟩

lemma flmMain_bestP (a b : Str) (alo ahi blo bhi : Nat)
    (halo : alo ≤ ahi) (hblo : blo ≤ bhi) :
    BestP alo ahi blo bhi (flmMain a b alo ahi blo bhi) := by
  have := flmFold_inv a b alo ahi blo bhi (ahi - alo) alo ([], (alo, blo, 0))
    (le_refl _) (by omega) (by intro p hp; cases hp)
    ⟨le_refl _, le_refl _, by show alo + 0 ≤ ahi; omega, by show blo + 0 ≤ bhi; omega⟩
  exact this.2

lemma extBack_bestP (a b : Str) (alo ahi blo bhi : Nat) (bjunk : Char → Bool)
    (junkFlag : Bool) :
    ∀ (fuel : Nat) (m : Nat × Nat × Nat), BestP alo ahi blo bhi m →
      BestP alo ahi blo bhi (extBack a b alo blo bjunk junkFlag fuel m) := by
  intro fuel
  induction fuel with
  | zero => intro m hm; exact hm
  | succ fuel ih =>
    intro m hm
    obtain ⟨bi, bj, k⟩ := m
    simp only [extBack]
    split
    next hcond =>
      refine ih _ ?_
      obtain ⟨hc1, hc2, _, _⟩ := hcond
      obtain ⟨h1, h2, h3, h4⟩ := hm
      have h1' : alo ≤ bi := h1
      have h2' : blo ≤ bj := h2
      have h3' : bi + k ≤ ahi := h3
      have h4' : bj + k ≤ bhi := h4
      exact ⟨show alo ≤ bi - 1 by omega, show blo ≤ bj - 1 by omega,
        show bi - 1 + (k + 1) ≤ ahi by omega, show bj - 1 + (k + 1) ≤ bhi by omega⟩
    next => exact hm

lemma extFwd_bestP (a b : Str) (alo ahi blo bhi : Nat) (bjunk : Char → Bool)
    (junkFlag : Bool) :
    ∀ (fuel : Nat) (m : Nat × Nat × Nat), BestP alo ahi blo bhi m →
      BestP alo ahi blo bhi (extFwd a b ahi bhi bjunk junkFlag fuel m) := by
  intro fuel
  induction fuel with
  | zero => intro m hm; exact hm
  | succ fuel ih =>
    intro m hm
    obtain ⟨bi, bj, k⟩ := m
    simp only [extFwd]
    split
    next hcond =>
      refine ih _ ?_
      obtain ⟨hc1, hc2, _, _⟩ := hcond
      obtain ⟨h1, h2, h3, h4⟩ := hm
      have h1' : alo ≤ bi := h1
      have h2' : blo ≤ bj := h2
      exact ⟨show alo ≤ bi from h1', show blo ≤ bj from h2',
        show bi + (k + 1) ≤ ahi by omega, show bj + (k + 1) ≤ bhi by omega⟩
    next => exact hm

lemma findLongestMatch_bestP (a b : Str) (alo ahi blo bhi : Nat)
    (halo : alo ≤ ahi) (hblo : blo ≤ bhi) :
    BestP alo ahi blo bhi (findLongestMatch a b alo ahi blo bhi) := by
  unfold findLongestMatch
  exact extFwd_bestP a b alo ahi blo bhi noJunk true _ _
    (extBack_bestP a b alo ahi blo bhi noJunk true _ _
      (extFwd_bestP a b alo ahi blo bhi noJunk false _ _
        (extBack_bestP a b alo ahi blo bhi noJunk false _ _
          (flmMain_bestP a b alo ahi blo bhi halo hblo))))

lemma matchSumF_le (a b : Str) :
    ∀ (fuel alo ahi blo bhi : Nat), alo ≤ ahi → blo ≤ bhi →
      matchSumF a b fuel alo ahi blo bhi ≤ min (ahi - alo) (bhi - blo) := by
  intro fuel
  induction fuel with
  | zero => intro alo ahi blo bhi _ _; simp [matchSumF]
  | succ fuel ih =>
    intro alo ahi blo bhi halo hblo
    obtain ⟨h1, h2, h3, h4⟩ := findLongestMatch_bestP a b alo ahi blo bhi halo hblo
    simp only [matchSumF]
    split
    next => exact Nat.zero_le _
    next hk0 =>
      set m := findLongestMatch a b alo ahi blo bhi with hm
      refine Nat.le_min.mpr ⟨?_, ?_⟩
      · by_cases hL : alo < m.1 ∧ blo < m.2.1 <;>
          by_cases hR : m.1 + m.2.2 < ahi ∧ m.2.1 + m.2.2 < bhi
        · rw [if_pos hL, if_pos hR]
          have hLb := Nat.le_min.mp (ih alo m.1 blo m.2.1 (le_of_lt hL.1) (le_of_lt hL.2))
          have hRb := Nat.le_min.mp (ih (m.1 + m.2.2) ahi (m.2.1 + m.2.2) bhi
            (by omega) (by omega))
          omega
        · rw [if_pos hL, if_neg hR]
          have hLb := Nat.le_min.mp (ih alo m.1 blo m.2.1 (le_of_lt hL.1) (le_of_lt hL.2))
          omega
        · rw [if_neg hL, if_pos hR]
          have hRb := Nat.le_min.mp (ih (m.1 + m.2.2) ahi (m.2.1 + m.2.2) bhi
            (by omega) (by omega))
          omega
        · rw [if_neg hL, if_neg hR]
          omega
      · by_cases hL : alo < m.1 ∧ blo < m.2.1 <;>
          by_cases hR : m.1 + m.2.2 < ahi ∧ m.2.1 + m.2.2 < bhi
        · rw [if_pos hL, if_pos hR]
          have hLb := Nat.le_min.mp (ih alo m.1 blo m.2.1 (le_of_lt hL.1) (le_of_lt hL.2))
          have hRb := Nat.le_min.mp (ih (m.1 + m.2.2) ahi (m.2.1 + m.2.2) bhi
            (by omega) (by omega))
          omega
        · rw [if_pos hL, if_neg hR]
          have hLb := Nat.le_min.mp (ih alo m.1 blo m.2.1 (le_of_lt hL.1) (le_of_lt hL.2))
          omega
        · rw [if_neg hL, if_pos hR]
          have hRb := Nat.le_min.mp (ih (m.1 + m.2.2) ahi (m.2.1 + m.2.2) bhi
            (by omega) (by omega))
          omega
        · rw [if_neg hL, if_neg hR]
          omega

lemma matchSum_le (a b : Str) : matchSum a b ≤ min a.length b.length := by
  have := matchSumF_le a b (a.length + b.length + 1) 0 a.length 0 b.length
    (Nat.zero_le _) (Nat.zero_le _)
  simpa using this

lemma smRatio_nonneg (a b : Str) : 0 ≤ smRatio a b := by
  unfold smRatio
  split
  · norm_num
  · exact div_nonneg (mul_nonneg (by norm_num) (Nat.cast_nonneg _)) (Nat.cast_nonneg _)

lemma smRatio_le_one (a b : Str) : smRatio a b ≤ 1 := by
  unfold smRatio
  split
  next => norm_num
  next hT =>
    have hpos : (0 : ℚ) < ((a.length + b.length : Nat) : ℚ) := by
      exact_mod_cast Nat.pos_of_ne_zero hT
    rw [div_le_one hpos]
    have hM := matchSum_le a b
    have h2M : 2 * matchSum a b ≤ a.length + b.length := by
      have := Nat.le_min.mp hM
      omega
    calc (2 : ℚ) * (matchSum a b : ℚ) = ((2 * matchSum a b : Nat) : ℚ) := by push_cast; ring
      _ ≤ ((a.length + b.length : Nat) : ℚ) := by exact_mod_cast h2M

/-! ## C3: the spec's scoring formula, stated from the spec text -/

/-- The fuzzy-similarity formula as the spec words it: 1.0 on case-insensitive
equality, `0.9 + (len(query)/len(candidate))*0.1` on proper containment, and
otherwise the `SequenceMatcher` ratio (0 when either side is empty). -/
def fuzzySpec (query candidate : Str) : ℚ :=
  if query = [] ∨ candidate = [] then 0
  else if pyUpper query = pyUpper candidate then 1
  else if pyContains (pyUpper candidate) (pyUpper query) then
    9/10 + ((query.length : ℚ) / (candidate.length : ℚ)) * (1/10)
  else smRatio (pyUpper query) (pyUpper candidate)

/-- The dosage bonus as the code guards it: all four fields non-empty and the
value/unit both matching after the record-side normalization. -/
def dosageBonusSpec (record : CUMRecord) (dv du : Str) : ℚ :=
  if dv ≠ [] ∧ du ≠ [] ∧ record.concentracion_valor ≠ [] ∧
      record.unidadmedida ≠ [] ∧ dv = commaToDot record.concentracion_valor ∧
      du = pyUpper record.unidadmedida then 1/10 else 0

/-- The dosage bonus as the claim words it: value and unit comparisons only,
with no non-emptiness guard. -/
def dosageBonusClaim (record : CUMRecord) (dv du : Str) : ℚ :=
  if commaToDot dv = commaToDot record.concentracion_valor ∧
      pyUpper du = pyUpper record.unidadmedida then 1/10 else 0

/-- The `VIGENTE` status bonus. -/
def statusBonusSpec (record : CUMRecord) : ℚ :=
  if pyUpper record.estadoregistro = "VIGENTE".toList then 1/20 else 0

/-- The total score exactly as the claim words it (with the claim's bonus). -/
def matchScoreClaim (query : Str) (record : CUMRecord) (dv du : Str) : ℚ :=
  min 1 (max (fuzzySpec query record.producto) (fuzzySpec query record.principioactivo)
    + dosageBonusClaim record dv du + statusBonusSpec record)

lemma fuzzyScore_eq_fuzzySpec (q c : Str) : fuzzyScore q c = fuzzySpec q c := by
  simp only [fuzzyScore, fuzzySpec, length_pyUpper]

lemma fuzzySpec_bounds (q c : Str) : 0 ≤ fuzzySpec q c ∧ fuzzySpec q c ≤ 1 := by
  unfold fuzzySpec
  split
  next => norm_num
  next hne =>
    split
    next => norm_num
    next =>
      split
      next hsub =>
        have hcne : c ≠ [] := fun h => hne (Or.inr h)
        have hclen : 0 < c.length := List.length_pos.mpr hcne
        have hinf : (pyUpper q) <:+: (pyUpper c) := (pyContains_infix_iff _ _).mp hsub
        have hle : q.length ≤ c.length := by
          have := hinf.length_le
          rwa [length_pyUpper, length_pyUpper] at this
        have hclq : (0 : ℚ) < (c.length : ℚ) := by exact_mod_cast hclen
        have hratio : (q.length : ℚ) / (c.length : ℚ) ≤ 1 := by
          rw [div_le_one hclq]
          exact_mod_cast hle
        constructor
        · have : (0 : ℚ) ≤ (q.length : ℚ) / (c.length : ℚ) :=
            div_nonneg (Nat.cast_nonneg _) (Nat.cast_nonneg _)
          linarith
        · nlinarith [hratio]
      next => exact ⟨smRatio_nonneg _ _, smRatio_le_one _ _⟩

/-- A record whose `unidadmedida` is empty while the extracted unit is also
empty: the claim's bonus condition holds vacuously but the code's guard
rejects it. -/
def c3RatioRecord : CUMRecord :=
  ⟨"1".toList, "AB".toList, "AB".toList, "850".toList, [], "TABLETA".toList,
    "LAB".toList, "INVIMA1".toList, "X".toList, "1".toList, "CAJA".toList⟩

/-- A fully matching active record: exact name match plus status bonus, so the
clamp at 1.0 hides the dosage bonus. -/
def c3FullRecord : CUMRecord :=
  ⟨"2".toList, "MET".toList, "MET".toList, "850".toList, "MG".toList,
    "TABLETA".toList, "LAB".toList, "INVIMA2".toList, "VIGENTE".toList,
    "1".toList, "CAJA".toList⟩

/-- C3 counterexample. (1) With an empty extracted unit and an empty record
unit the claim's formula (bonus exactly when value and unit compare equal)
awards the 0.10 bonus and clamps to 1, but `_calculate_match_score` guards on
non-emptiness and returns 19/20. (2) With the base already at 1.0 and status
`VIGENTE`, a unit mismatch (`ML` vs `MG`) yields the same clamped score 1.0 as
the full dosage match, refuting "strictly lower". -/
theorem C3_counterexample_bonus_guard_and_clamp :
    calculateMatchScore "A".toList c3RatioRecord "850".toList [] ≠
      matchScoreClaim "A".toList c3RatioRecord "850".toList [] ∧
    calculateMatchScore "MET".toList c3FullRecord "850".toList "ML".toList =
      calculateMatchScore "MET".toList c3FullRecord "850".toList "MG".toList := by
  have hf : fuzzyScore "A".toList "AB".toList = 19/20 := by
    show (9 : ℚ)/10 + (((1 : Nat) : ℚ) / ((2 : Nat) : ℚ)) * (1/10) = 19/20
    norm_num
  have hfs : fuzzySpec "A".toList "AB".toList = 19/20 := by
    show (9 : ℚ)/10 + (((1 : Nat) : ℚ) / ((2 : Nat) : ℚ)) * (1/10) = 19/20
    norm_num
  have hfm : fuzzyScore "MET".toList "MET".toList = 1 := rfl
  have hcode : calculateMatchScore "A".toList c3RatioRecord "850".toList [] = 19/20 := by
    simp only [calculateMatchScore, c3RatioRecord]
    rw [hf, max_self, if_neg (by decide), if_neg (by decide)]
    rw [show (19 : ℚ)/20 + 0 + 0 = 19/20 by ring]
    exact min_eq_right (by norm_num)
  have hclaim : matchScoreClaim "A".toList c3RatioRecord "850".toList [] = 1 := by
    simp only [matchScoreClaim, dosageBonusClaim, statusBonusSpec, c3RatioRecord]
    rw [hfs, max_self, if_pos (by decide), if_neg (by decide)]
    rw [show (19 : ℚ)/20 + 1/10 + 0 = 21/20 by ring]
    exact min_eq_left (by norm_num)
  have hml : calculateMatchScore "MET".toList c3FullRecord "850".toList "ML".toList = 1 := by
    simp only [calculateMatchScore, c3FullRecord]
    rw [hfm, max_self, if_neg (by decide), if_pos (by decide)]
    rw [show (1 : ℚ) + 0 + 1/20 = 21/20 by ring]
    exact min_eq_left (by norm_num)
  have hmg : calculateMatchScore "MET".toList c3FullRecord "850".toList "MG".toList = 1 := by
    simp only [calculateMatchScore, c3FullRecord]
    rw [hfm, max_self, if_pos (by decide), if_pos (by decide)]
    rw [show (1 : ℚ) + 1/10 + 1/20 = 23/20 by ring]
    exact min_eq_left (by norm_num)
  refine ⟨?_, by rw [hml, hmg]⟩
  rw [hcode, hclaim]
  norm_num

/-- C3 (amended): the match score is `min 1 (base + dosage_bonus + status_bonus)`
with base the larger of the two fuzzy similarities stated exactly as the spec's
formula, where the 0.10 dosage bonus additionally requires all four of the
extracted value, extracted unit, record concentration value and record unit to
be non-empty; every `SequenceMatcher` ratio and every fuzzy similarity lies in
[0,1]; and a unit mismatch scores strictly lower than the full dosage match
only when the unclamped bonused total stays at most 1. -/
theorem C3_match_score_amended :
    (∀ q rec dv du, calculateMatchScore q rec dv du =
      min 1 (max (fuzzySpec q rec.producto) (fuzzySpec q rec.principioactivo) +
        dosageBonusSpec rec dv du + statusBonusSpec rec)) ∧
    (∀ a b, 0 ≤ smRatio a b ∧ smRatio a b ≤ 1) ∧
    (∀ q c, 0 ≤ fuzzySpec q c ∧ fuzzySpec q c ≤ 1) ∧
    (∀ q rec dv du du2, dv ≠ [] → du ≠ [] → rec.concentracion_valor ≠ [] →
      rec.unidadmedida ≠ [] → dv = commaToDot rec.concentracion_valor →
      du = pyUpper rec.unidadmedida → du2 ≠ pyUpper rec.unidadmedida →
      max (fuzzyScore q rec.producto) (fuzzyScore q rec.principioactivo) +
        1/10 + statusBonusSpec rec ≤ 1 →
      calculateMatchScore q rec dv du2 < calculateMatchScore q rec dv du) := by
  refine ⟨?_, fun a b => ⟨smRatio_nonneg a b, smRatio_le_one a b⟩, fuzzySpec_bounds, ?_⟩
  · intro q rec dv du
    simp only [calculateMatchScore, dosageBonusSpec, statusBonusSpec,
      fuzzyScore_eq_fuzzySpec]
  · intro q rec dv du du2 h1 h2 h3 h4 h5 h6 h7 hclamp
    simp only [statusBonusSpec] at hclamp
    simp only [calculateMatchScore]
    set st := (if pyUpper rec.estadoregistro = ("VIGENTE".toList : Str)
      then (1 : ℚ)/20 else 0) with hstdef
    have hst : (0 : ℚ) ≤ st := by
      rw [hstdef]; split <;> norm_num
    have hposc : dv ≠ [] ∧ du ≠ [] ∧ rec.concentracion_valor ≠ [] ∧
        rec.unidadmedida ≠ [] ∧ dv = commaToDot rec.concentracion_valor ∧
        du = pyUpper rec.unidadmedida := ⟨h1, h2, h3, h4, h5, h6⟩
    rw [if_neg (fun hc => h7 hc.2.2.2.2.2), if_pos hposc]
    rw [min_eq_right (by linarith), min_eq_right (by linarith)]
    linarith

/-- A record with no fuzzy overlap with the query, so the bonused total stays
below 1 and the strict inequality of the amended claim is exercised. -/
def c3WitRecord : CUMRecord :=
  ⟨"3".toList, "B".toList, "B".toList, "850".toList, "MG".toList,
    "TABLETA".toList, "LAB".toList, "INVIMA3".toList, "X".toList,
    "1".toList, "CAJA".toList⟩

/-- C3 witness: for query `A` against record `B` (ratio 0, inactive status),
the unit mismatch `ML` scores strictly below the full match `MG`. -/
theorem C3_match_score_amended_witness :
    calculateMatchScore "A".toList c3WitRecord "850".toList "ML".toList <
      calculateMatchScore "A".toList c3WitRecord "850".toList "MG".toList := by
  have hf : fuzzyScore "A".toList "B".toList = 0 := by
    show 2 * ((0 : Nat) : ℚ) / ((2 : Nat) : ℚ) = 0
    norm_num
  exact C3_match_score_amended.2.2.2 "A".toList c3WitRecord "850".toList
    "MG".toList "ML".toList (by decide) (by decide) (by decide) (by decide)
    (by decide) (by decide) (by decide)
    (by simp only [statusBonusSpec, c3WitRecord]
        rw [hf, max_self, if_neg (by decide)]
        norm_num)

/-! ## src/pipelines/prescription_enrichment.py -/

/-- `EnrichedMedication` (src/pipelines/prescription_enrichment.py lines
19-27).  The dataclass has exactly these five fields; in particular it has no
field for warning strings. -/
structure EnrichedMedication where
  medication_name : Str
  matchResult : DrugMatchResult
  generics : List CUMRecord
  prices : List PriceRecord
  price_summary : Option PriceSummary
deriving DecidableEq

/-- `_filter_by_form` (lines 30-38). -/
def filterByForm (generics : List CUMRecord) (form : Str) : List CUMRecord :=
  if form = [] then generics
  else generics.filter fun g => decide (pyUpper g.formafarmaceutica = pyUpper form)

/-- `enrich_medication` (lines 41-94).  The registry, generics and price
collaborators are oracles; a raised exception is `.error`.  The body has no
try/except, so an error from `find_generics`, `get_price_by_expediente` or
`get_price_range` propagates out of the whole function. -/
def enrichMedication
    (productSearch ingredientSearch : Str → Nat → Except Str (List CUMRecord))
    (findGenerics : Str → Str → Except Str (List CUMRecord))
    (getPriceByExpediente : Str → Nat → Except Str (List PriceRecord))
    (medication_name dosage form : Str) (limit : Nat) :
    Except Str EnrichedMedication :=
  let match_result :=
    (matchDrugToCum productSearch ingredientSearch medication_name dosage limit).1
  match match_result.record with
  | none => .ok ⟨medication_name, match_result, [], [], none⟩
  | some record =>
    match findGenerics record.principioactivo record.concentracion_valor with
    | .error e => .error e
    | .ok generics0 =>
      let effective_form := if form ≠ [] then form else record.formafarmaceutica
      let generics := filterByForm generics0 effective_form
      if record.expedientecum ≠ [] then
        match getPriceByExpediente record.expedientecum 10 with
        | .error e => .error e
        | .ok prices =>
          match getPriceRange prices with
          | .error e => .error e
          | .ok price_summary =>
            .ok ⟨medication_name, match_result, generics, prices, price_summary⟩
      else .ok ⟨medication_name, match_result, generics, [], none⟩

/-- An exact-match CUM record with an expediente, so the enrichment price path
is live. -/
def c1Rec : CUMRecord :=
  ⟨"20001234".toList, "METFORMINA".toList, "METFORMINA".toList, "850".toList,
    "MG".toList, "TABLETA".toList, "MK".toList, "INVIMA9".toList, "X".toList,
    "30".toList, "CAJA X 30".toList⟩

lemma c1Rec_score : calculateMatchScore "METFORMINA".toList c1Rec [] [] = 1 := by
  have hfm : fuzzyScore "METFORMINA".toList "METFORMINA".toList = 1 := rfl
  simp only [calculateMatchScore, c1Rec]
  rw [hfm, max_self, if_neg (by decide), if_neg (by decide)]
  rw [show (1 : ℚ) + 0 + 0 = 1 by norm_num, min_self]

lemma matchDrugToCum_c1_record :
    ((matchDrugToCum (fun _ _ => Except.ok [c1Rec]) (fun _ _ => Except.ok [])
      "METFORMINA".toList [] 20).1).record = some c1Rec := by
  obtain ⟨debug, heq⟩ := matchDrugToCum_main (fun _ _ => Except.ok [c1Rec])
    (fun _ _ => Except.ok []) "METFORMINA".toList [] 20 (by decide) (by decide)
  rw [heq]
  have hnorm : (normalizeDrugName "METFORMINA".toList).1 = "METFORMINA".toList := by
    decide
  have hdos : effectiveDosage "METFORMINA".toList [] = ([], []) := by decide
  have hg : gatherCandidates (fun _ _ => Except.ok [c1Rec]) (fun _ _ => Except.ok [])
      (normalizeDrugName "METFORMINA".toList).1
      (effectiveDosage "METFORMINA".toList []).1
      (effectiveDosage "METFORMINA".toList []).2 20 =
      [(c1Rec, 1, "exact".toList)] := by
    rw [hnorm, hdos]
    simp only [gatherCandidates, addIngredientCandidates, productCandidates,
      List.map, List.foldl, c1Rec_score]
    rw [if_pos (by norm_num : (4 : ℚ)/5 ≤ 1)]
  rw [hg]
  have hsort : sortByScoreDesc [(c1Rec, 1, "exact".toList)] =
      [(c1Rec, (1 : ℚ), "exact".toList)] := rfl
  rw [hsort]
  simp only [selectResult, MIN_CONFIDENCE]
  rw [if_neg (by norm_num : ¬(1 : ℚ) < 1/2)]

/-- C1 (code behavior, refuting the isolation claim): whenever the matcher
returns a record, an exception raised by the generics lookup propagates out of
`enrich_medication` unchanged — no `EnrichedMedication` with preserved price
data is returned — and likewise an exception raised by the price lookup
propagates even when the generics lookup succeeded. -/
theorem C1_enrichment_exception_propagates :
    (∀ (productSearch ingredientSearch : Str → Nat → Except Str (List CUMRecord))
      (getPrices : Str → Nat → Except Str (List PriceRecord)) (e : Str)
      (name dosage form : Str) (limit : Nat) (rec : CUMRecord),
      (matchDrugToCum productSearch ingredientSearch name dosage limit).1.record =
        some rec →
      enrichMedication productSearch ingredientSearch (fun _ _ => Except.error e)
        getPrices name dosage form limit = Except.error e) ∧
    (∀ (productSearch ingredientSearch : Str → Nat → Except Str (List CUMRecord))
      (e : Str) (name dosage form : Str) (limit : Nat) (rec : CUMRecord)
      (gl : List CUMRecord),
      (matchDrugToCum productSearch ingredientSearch name dosage limit).1.record =
        some rec →
      rec.expedientecum ≠ [] →
      enrichMedication productSearch ingredientSearch (fun _ _ => Except.ok gl)
        (fun _ _ => Except.error e) name dosage form limit = Except.error e) := by
  constructor
  · intro ps is gp e name dosage form limit rec hrec
    simp only [enrichMedication]
    rw [hrec]
  · intro ps is e name dosage form limit rec gl hrec hexp
    simp only [enrichMedication]
    rw [hrec]
    simp only []
    rw [if_pos hexp]

/-- C1 witness: a concrete exact-match enrichment where the generics lookup
raises (price oracle healthy) and one where the price lookup raises (generics
oracle healthy); both runs surface the raw error instead of a partial result. -/
theorem C1_enrichment_exception_propagates_witness :
    enrichMedication (fun _ _ => Except.ok [c1Rec]) (fun _ _ => Except.ok [])
      (fun _ _ => Except.error "RuntimeError: CUM unavailable".toList)
      (fun _ _ => Except.ok [sismedOkRecord]) "METFORMINA".toList [] [] 20 =
      Except.error "RuntimeError: CUM unavailable".toList ∧
    enrichMedication (fun _ _ => Except.ok [c1Rec]) (fun _ _ => Except.ok [])
      (fun _ _ => Except.ok [])
      (fun _ _ => Except.error "RuntimeError: SISMED unavailable".toList)
      "METFORMINA".toList [] [] 20 =
      Except.error "RuntimeError: SISMED unavailable".toList :=
  ⟨C1_enrichment_exception_propagates.1 _ _ _
      "RuntimeError: CUM unavailable".toList _ _ _ _ c1Rec matchDrugToCum_c1_record,
   C1_enrichment_exception_propagates.2 _ _
      "RuntimeError: SISMED unavailable".toList _ _ _ _ c1Rec []
      matchDrugToCum_c1_record (by decide)⟩
